import Mathlib

/-!
Verification development for the `obsidian-wayback-archiver` plugin.

The TypeScript sources under `src/` are shallowly embedded below:
pure functions become Lean functions on `List Char` / `String`, the
stateful orchestration code becomes explicit state passing, and the
JavaScript regular expressions used by the plugin are embedded as an
abstract syntax tree together with an executable backtracking matcher
that mirrors ECMAScript matching semantics (ordered alternation,
greedy/lazy quantifiers with backtracking, lookahead, capture groups,
multiline anchors, `matchAll` scanning).

External collaborators (the Obsidian vault, the wall clock, the
archive.org HTTP endpoints, user-supplied regex pattern lists and the
date-format library) are modelled as explicit parameters of the
embedded functions.
-/

namespace Wayback

/-! ### JavaScript character/string primitives -/

/-- The characters matched by the ECMAScript `\s` class (ASCII part plus
NBSP and BOM; all inputs in this development are ASCII). -/
def jsSpace (c : Char) : Bool :=
  c = ' ' || c = '\t' || c = '\n' || c = '\r' || c = '\x0b' || c = '\x0c' ||
  c = ' ' || c = '﻿'

/-- ASCII lower-casing, used to model the `i` regex flag. -/
def lowerAscii (c : Char) : Char :=
  if 'A' ≤ c ∧ c ≤ 'Z' then Char.ofNat (c.toNat + 32) else c

/-- Case-insensitive character comparison (the `i` flag's canonicalization,
restricted to ASCII). -/
def charIEq (a b : Char) : Bool := lowerAscii a = lowerAscii b

/-- ECMAScript `\w` (word character), used for `\b`. -/
def jsWordChar (c : Char) : Bool :=
  ('a' ≤ c ∧ c ≤ 'z') || ('A' ≤ c ∧ c ≤ 'Z') || ('0' ≤ c ∧ c ≤ '9') || c = '_'

/-- `[a-zA-Z0-9]` -/
def alnum (c : Char) : Bool :=
  ('a' ≤ c ∧ c ≤ 'z') || ('A' ≤ c ∧ c ≤ 'Z') || ('0' ≤ c ∧ c ≤ '9')

/-- `[a-zA-Z0-9-]` -/
def alnumDash (c : Char) : Bool := alnum c || c = '-'

/-- `[0-9]` (`\d`). -/
def digitChar (c : Char) : Bool := '0' ≤ c ∧ c ≤ '9'

/-- Line terminators recognised by the `m` flag's `^`. -/
def lineTerm (c : Char) : Bool :=
  c = '\n' || c = '\r' || c = ' ' || c = ' '

/-- `String.prototype.includes` on character lists. -/
def jsIncludes (hay needle : List Char) : Bool :=
  (hay.tails).any (fun t => needle.isPrefixOf t)

/-- `String.prototype.trim` (both ends, `\s`-like class). -/
def jsTrim (s : List Char) : List Char :=
  (s.dropWhile jsSpace).reverse.dropWhile jsSpace |>.reverse

/-! ### Embedded regular expressions

`Re` is the fragment of ECMAScript regular expressions used by the
plugin's three regexes.  `lit c ci` is a literal character (`ci` = the
`i` flag applies); `cls` is a character class given as a predicate;
`star r lazyQ` is `r*` (`lazyQ` selects `*?`); `rep1` is `+`; `look neg
r` is `(?=r)` / `(?!r)`; `lineStart` is `^` under the `m` flag
(`startOnly` restricts it to position 0, i.e. no `m` flag). -/

inductive Re where
  | eps : Re
  | lit : Char → Bool → Re
  | cls : (Char → Bool) → Re
  | seq : Re → Re → Re
  | alt : Re → Re → Re
  | star : Re → Bool → Re
  | opt : Re → Re
  | group : Nat → Re → Re
  | look : Bool → Re → Re
  | lineStart : Bool → Re
  | wordB : Re

/-- Sequence a list of regexes. -/
def Re.seqs : List Re → Re
  | [] => .eps
  | [r] => r
  | r :: rs => .seq r (Re.seqs rs)

/-- Ordered alternation of a list of regexes. -/
def Re.alts : List Re → Re
  | [] => .eps
  | [r] => r
  | r :: rs => .alt r (Re.alts rs)

/-- A case-insensitive literal word. -/
def Re.word (s : String) : Re := Re.seqs (s.toList.map (fun c => .lit c true))

/-- A case-sensitive literal word. -/
def Re.wordCS (s : String) : Re := Re.seqs (s.toList.map (fun c => .lit c false))

/-- `r+` (greedy). -/
def Re.rep1 (r : Re) : Re := .seq r (.star r false)

/-- `r{n,}` (greedy). -/
def Re.repAtLeast (n : Nat) (r : Re) : Re :=
  match n with
  | 0 => .star r false
  | n + 1 => .seq r (Re.repAtLeast n r)

/-- Matcher position: absolute offset, previous character (for `^`/`\b`),
remaining input. -/
structure MPos where
  pos : Nat
  prev : Option Char
  rest : List Char
deriving Repr

/-- Captures: `(group index, start, end)`, most recent first (mirrors the
last write of an ECMAScript capture group along the successful path). -/
abbrev Caps := List (Nat × Nat × Nat)

/-- Backtracking CPS matcher with ECMAScript semantics: ordered
alternation, greedy/lazy quantifiers (no empty iterations), lookahead,
capture groups recorded along the successful path.  `fuel` bounds the
structural depth of the search (the callers below supply enough fuel
for the plugin's patterns; the recursion is structural on `fuel` so
that the kernel can evaluate matches). -/
def reM (fuel : Nat) (re : Re) (st : MPos) (caps : Caps)
    (k : MPos → Caps → Option (Nat × Caps)) : Option (Nat × Caps) :=
  match fuel with
  | 0 => none
  | f + 1 =>
    match re with
    | .eps => k st caps
    | .lit c ci =>
        match st.rest with
        | [] => none
        | c' :: r =>
            if (if ci then charIEq c c' else c = c') then
              k ⟨st.pos + 1, some c', r⟩ caps
            else none
    | .cls p =>
        match st.rest with
        | [] => none
        | c' :: r => if p c' then k ⟨st.pos + 1, some c', r⟩ caps else none
    | .seq a b => reM f a st caps (fun st' caps' => reM f b st' caps' k)
    | .alt a b =>
        match reM f a st caps k with
        | some res => some res
        | none => reM f b st caps k
    | .star r lazyQ =>
        let stepK : Option (Nat × Caps) :=
          reM f r st caps (fun st' caps' =>
            if st.pos < st'.pos then reM f (.star r lazyQ) st' caps' k else none)
        if lazyQ then
          match k st caps with
          | some res => some res
          | none => stepK
        else
          match stepK with
          | some res => some res
          | none => k st caps
    | .opt r =>
        match reM f r st caps k with
        | some res => some res
        | none => k st caps
    | .group n r =>
        reM f r st caps (fun st' caps' => k st' ((n, st.pos, st'.pos) :: caps'))
    | .look neg r =>
        match reM f r st caps (fun st' caps' => some (st'.pos, caps')) with
        | some (_, caps') => if neg then none else k st caps'
        | none => if neg then k st caps else none
    | .lineStart startOnly =>
        if st.pos = 0 then k st caps
        else if startOnly then none
        else
          match st.prev with
          | some c => if lineTerm c then k st caps else none
          | none => none
    | .wordB =>
        let before := match st.prev with | some c => jsWordChar c | none => false
        let after := match st.rest with | c :: _ => jsWordChar c | [] => false
        if before ≠ after then k st caps else none

/-- One regex match as produced by `String.prototype.matchAll`. -/
structure RMatch where
  index : Nat
  matched : List Char
  caps : Caps
deriving Repr, DecidableEq

/-- Try a match at the given position (generous structural fuel). -/
def tryMatchAt (re : Re) (st : MPos) : Option (Nat × Caps) :=
  reM (600 + 40 * st.rest.length) re st [] (fun st' caps' => some (st'.pos, caps'))

/-- Scanner for `matchAll` (the `g` flag): attempt at each position,
continue after the end of each (non-empty) match. -/
def matchAllAux (fuel : Nat) (re : Re) (st : MPos) : List RMatch :=
  match fuel with
  | 0 => []
  | fu + 1 =>
      match tryMatchAt re st with
      | some (e, caps) =>
          if st.pos < e then
            let len := e - st.pos
            let matched := st.rest.take len
            let rest' := st.rest.drop len
            let prev' := matched.getLast? |>.orElse (fun _ => st.prev)
            ⟨st.pos, matched, caps⟩ :: matchAllAux fu re ⟨e, prev', rest'⟩
          else
            -- empty match: advance one character (never happens for the
            -- plugin's regexes, whose alternatives all consume input)
            match st.rest with
            | [] => [⟨st.pos, [], caps⟩]
            | c :: r => ⟨st.pos, [], caps⟩ :: matchAllAux fu re ⟨st.pos + 1, some c, r⟩
      | none =>
          match st.rest with
          | [] => []
          | c :: r => matchAllAux fu re ⟨st.pos + 1, some c, r⟩

/-- `Array.from(text.matchAll(re))`. -/
def jsMatchAll (re : Re) (text : List Char) : List RMatch :=
  matchAllAux (text.length + 1) re ⟨0, none, text⟩

/-- First match anywhere (`String.prototype.match` without `g`,
`RegExp.prototype.exec`): scan left to right. -/
def jsMatchFirst (fuel : Nat) (re : Re) (st : MPos) : Option RMatch :=
  match fuel with
  | 0 => none
  | fu + 1 =>
      match tryMatchAt re st with
      | some (e, caps) => some ⟨st.pos, st.rest.take (e - st.pos), caps⟩
      | none =>
          match st.rest with
          | [] => none
          | c :: r => jsMatchFirst fu re ⟨st.pos + 1, some c, r⟩

/-- `text.match(re)` for a non-global regex. -/
def jsMatch (re : Re) (text : List Char) : Option RMatch :=
  jsMatchFirst (text.length + 1) re ⟨0, none, text⟩

/-- The substring captured by group `n` of a match (ECMAScript
`match[n]`), `none` when the group did not participate. -/
def RMatch.groupStr (full : List Char) (m : RMatch) (n : Nat) : Option (List Char) :=
  match m.caps.find? (fun t => t.1 = n) with
  | some (_, s, e) => some ((full.drop s).take (e - s))
  | none => none

/-! ### `LINK_REGEX` (src/src/utils/LinkUtils.ts lines 17), flags `img`.

```
!?\[[^\[\]]*\]\((U)\)|<a\b(?=[^>]*href=["'])[^>]*href="((?:https?:\/\/|www\.)[^"]+)"[^>]*>.*?<\/a>
  |<img\b(?=[^>]*src=["'])[^>]*src="((?:https?:\/\/|www\.)[^"]+)"[^>]*>|^(U)
```
where `U` is the four-way URL alternation. -/

/-- `[^\s]` -/
def nonSpace : Re := .cls (fun c => !jsSpace c)

/-- `.` without the `s` flag (anything but a line terminator). -/
def dotNoNL : Re := .cls (fun c => !lineTerm c)

/-- `.` with the `s` flag. -/
def dotAll : Re := .cls (fun _ => true)

/-- `https?:\/\/(?:www\.|(?!www))[a-zA-Z0-9][a-zA-Z0-9-]+[a-zA-Z0-9]\.[^\s]{2,}` -/
def urlAlt1 : Re := Re.seqs
  [Re.word "http", .opt (.lit 's' true), Re.word "://",
   .alt (Re.word "www.") (.look true (Re.word "www")),
   .cls alnum, Re.rep1 (.cls alnumDash), .cls alnum, .lit '.' true,
   Re.repAtLeast 2 nonSpace]

/-- `www\.[a-zA-Z0-9][a-zA-Z0-9-]+[a-zA-Z0-9]\.[^\s]{2,}` -/
def urlAlt2 : Re := Re.seqs
  [Re.word "www.", .cls alnum, Re.rep1 (.cls alnumDash), .cls alnum,
   .lit '.' true, Re.repAtLeast 2 nonSpace]

/-- `https?:\/\/(?:www\.|(?!www))[a-zA-Z0-9]+\.[^\s]{2,}` -/
def urlAlt3 : Re := Re.seqs
  [Re.word "http", .opt (.lit 's' true), Re.word "://",
   .alt (Re.word "www.") (.look true (Re.word "www")),
   Re.rep1 (.cls alnum), .lit '.' true, Re.repAtLeast 2 nonSpace]

/-- `www\.[a-zA-Z0-9]+\.[^\s]{2,}` -/
def urlAlt4 : Re := Re.seqs
  [Re.word "www.", Re.rep1 (.cls alnum), .lit '.' true, Re.repAtLeast 2 nonSpace]

/-- The URL alternation shared by the markdown and plain alternatives. -/
def urlCore : Re := Re.alts [urlAlt1, urlAlt2, urlAlt3, urlAlt4]

/-- `[^>]` -/
def notGt : Re := .cls (fun c => c ≠ '>')

/-- `!?\[[^\[\]]*\]\((U)\)` with capture group 1. -/
def mdAlt : Re := Re.seqs
  [.opt (.lit '!' true), .lit '[' true,
   .star (.cls (fun c => c ≠ '[' && c ≠ ']')) false,
   .lit ']' true, .lit '(' true, .group 1 urlCore, .lit ')' true]

/-- `(?:https?:\/\/|www\.)` -/
def hrefScheme : Re :=
  .alt (Re.seqs [Re.word "http", .opt (.lit 's' true), Re.word "://"]) (Re.word "www.")

/-- `<a\b(?=[^>]*href=["'])[^>]*href="((?:https?:\/\/|www\.)[^"]+)"[^>]*>.*?<\/a>`
with capture group 2. -/
def aAlt : Re := Re.seqs
  [Re.word "<a", .wordB,
   .look false (Re.seqs [.star notGt false, Re.word "href=",
     .cls (fun c => c = '"' || c = '\'')]),
   .star notGt false, Re.word "href=\"",
   .group 2 (.seq hrefScheme (Re.rep1 (.cls (fun c => c ≠ '"')))),
   .lit '"' true, .star notGt false, .lit '>' true,
   .star dotNoNL true, Re.word "</a>"]

/-- `<img\b(?=[^>]*src=["'])[^>]*src="((?:https?:\/\/|www\.)[^"]+)"[^>]*>`
with capture group 3. -/
def imgAlt : Re := Re.seqs
  [Re.word "<img", .wordB,
   .look false (Re.seqs [.star notGt false, Re.word "src=",
     .cls (fun c => c = '"' || c = '\'')]),
   .star notGt false, Re.word "src=\"",
   .group 3 (.seq hrefScheme (Re.rep1 (.cls (fun c => c ≠ '"')))),
   .lit '"' true, .star notGt false, .lit '>' true]

/-- `^(U)` with capture group 4 (`^` under the `m` flag). -/
def plainAlt : Re := .seq (.lineStart false) (.group 4 urlCore)

/-- The combined `LINK_REGEX` (ordered alternation). -/
def LINK_REGEX : Re := Re.alts [mdAlt, aAlt, imgAlt, plainAlt]

/-- `match[1] || match[2] || ...`: JavaScript `||` also skips the empty
string. -/
def jsOrStr (o : Option (List Char)) (d : List Char) : List Char :=
  match o with
  | some s => if s.isEmpty then d else s
  | none => d

/-- `getUrlFromMatch` (src/src/utils/LinkUtils.ts line 19):
`match[1] || match[2] || match[3] || match[4] || ''`. -/
def getUrlFromMatch (full : List Char) (m : RMatch) : List Char :=
  jsOrStr (m.groupStr full 1) (jsOrStr (m.groupStr full 2)
    (jsOrStr (m.groupStr full 3) (jsOrStr (m.groupStr full 4) [])))

/-- `Array.from(content.matchAll(LINK_REGEX))`. -/
def findLinks (content : List Char) : List RMatch := jsMatchAll LINK_REGEX content

/-- The list of extracted URLs of all matches in a text. -/
def foundUrls (content : List Char) : List (List Char) :=
  (findLinks content).map (getUrlFromMatch content)

/-! ### `ADJACENT_ARCHIVE_LINK_REGEX` (src/src/utils/LinkUtils.ts lines 22-28),
flag `s` only:
```
^\s*\n*\s*(\[.*?\]\(https?:\/\/web\.archive\.org\/web\/(\d+|\*)\/.+?\))
 |(\s*\n*\s*<a [^>]*href=\\?"https?:\/\/web\.archive\.org\/web\/(\d+|\*)\/.+?\\?"[^>]*>.*?<\/a>)
``` -/

/-- `r+?` (lazy plus). -/
def lazyPlus (r : Re) : Re := .seq r (.star r true)

/-- `\s*\n*\s*` -/
def spacePad : Re := Re.seqs
  [.star (.cls jsSpace) false, .star (.lit '\n' false) false, .star (.cls jsSpace) false]

/-- `https?:\/\/web\.archive\.org\/web\/` (case-sensitive: no `i` flag). -/
def archPre : Re := Re.seqs
  [Re.wordCS "http", .opt (.lit 's' false), Re.wordCS "://web.archive.org/web/"]

/-- `(\d+|\*)` as capture group `n`. -/
def tsGroup (n : Nat) : Re := .group n (.alt (Re.rep1 (.cls digitChar)) (.lit '*' false))

/-- Markdown alternative of the adjacent-archive-link regex
(group 1 = whole link, group 2 = timestamp). -/
def adjMd : Re := Re.seqs
  [.lineStart true, spacePad,
   .group 1 (Re.seqs
     [.lit '[' false, .star dotAll true, Re.wordCS "](", archPre, tsGroup 2,
      .lit '/' false, lazyPlus dotAll, .lit ')' false])]

/-- HTML alternative of the adjacent-archive-link regex
(group 3 = whole match, group 4 = timestamp). -/
def adjHtml : Re :=
  .group 3 (Re.seqs
    [spacePad, Re.wordCS "<a ", .star notGt false, Re.wordCS "href=",
     .opt (.lit '\\' false), .lit '"' false, archPre, tsGroup 4,
     .lit '/' false, lazyPlus dotAll, .opt (.lit '\\' false), .lit '"' false,
     .star notGt false, .lit '>' false, .star dotAll true, Re.wordCS "</a>"])

/-- The combined adjacent-archive-link regex. -/
def ADJACENT_ARCHIVE_LINK_REGEX : Re := .alt adjMd adjHtml

/-- `isFollowedByArchiveLink` (src/src/utils/LinkUtils.ts line 30):
`ADJACENT_ARCHIVE_LINK_REGEX.test(textFollowingLink)`. -/
def isFollowedByArchiveLink (textFollowingLink : List Char) : Bool :=
  (jsMatch ADJACENT_ARCHIVE_LINK_REGEX textFollowingLink).isSome

/-! ### `findLatestLinkIndex` (src/src/utils/contentManipulator.ts lines 10-38) -/

/-- `Math.abs(a - b)` on offsets. -/
def offDist (a b : Nat) : Nat := max a b - min a b

/-- The loop of `findLatestLinkIndex`: keep the first seen match whose
distance to `approximateIndex` is minimal (strict `<` for updates). -/
def bestMatchAux (approx : Nat) : RMatch → List RMatch → RMatch
  | best, [] => best
  | best, c :: rest =>
      if offDist c.index approx < offDist best.index approx then
        bestMatchAux approx c rest
      else bestMatchAux approx best rest

/-- `findLatestLinkIndex(content, originalUrl, approximateIndex)`:
re-scan `content`, keep matches whose extracted URL equals
`originalUrl`, return the index of the one closest to
`approximateIndex`; `null` if none. -/
def findLatestLinkIndex (content originalUrl : List Char) (approximateIndex : Nat) :
    Option Nat :=
  let found := findLinks content
  let eligibleMatches := found.filter (fun m => getUrlFromMatch content m = originalUrl)
  match eligibleMatches with
  | [] => none
  | m :: ms => some (bestMatchAux approximateIndex m ms).index

/-! ### Settings (src/src/core/settings.ts)

The fields consumed by the embedded core.  User-authored regex pattern
lists (`ignorePatterns`, `urlPatterns`), the substitution-rule list and
the date-format string are interpreted by external machinery
(`RegExp`, date-fns); they enter the model as injected functions /
pre-rendered strings:
* `ignoreTest u` stands for `matchesAnyPattern(u, ignorePatterns)`,
* `urlTest u` stands for `matchesAnyPattern(u, urlPatterns)`
  (`urlPatternsEmpty` tells whether the list is empty),
* `subst u` stands for `applySubstitutionRules(u, substitutionRules)`,
* `archiveDateStr` stands for `format(new Date(), dateFormat)`. -/
structure SettingsModel where
  archiveLinkText : List Char
  archiveDateStr : List Char
  archiveFreshnessDays : Nat
  maxRetries : Nat
  ignoreTest : List Char → Bool
  urlPatternsEmpty : Bool
  urlTest : List Char → Bool
  subst : List Char → List Char

/-- Modelled from the spec: `getFreshnessThresholdMs` is declared in
`src/core/settings.ts`, which is not among the provided sources (only
its import sites are).  The spec describes the setting as the
"freshness window in days" (§3, §4.6), so the threshold is the window
converted to milliseconds. -/
def getFreshnessThresholdMs (settings : SettingsModel) : Int :=
  (settings.archiveFreshnessDays : Int) * 86400000

/-! ### JavaScript date / number parsing (for `checkAdjacentLinkFreshness`) -/

/-- `parseInt(s)` (radix 10): skip leading whitespace, optional sign,
longest leading digit run; `NaN` (here `none`) when there is none. -/
def parseIntJs (s : List Char) : Option Int :=
  let s1 := s.dropWhile jsSpace
  let (sgn, s2) : Int × List Char :=
    match s1 with
    | '-' :: r => (-1, r)
    | '+' :: r => (1, r)
    | _ => (1, s1)
  let digits := s2.takeWhile digitChar
  if digits.isEmpty then none
  else some (sgn * (digits.foldl (fun a c => a * 10 + ((c.toNat : Int) - 48)) 0))

/-- `s.substring(a, b)` for `a ≤ b` (all call sites use ordered bounds). -/
def jsSubstring (s : List Char) (a b : Nat) : List Char := (s.take b).drop a

/-- Days from the epoch of a proleptic-Gregorian civil date
(`m` is 1–12; Howard Hinnant's `days_from_civil`). -/
def daysFromCivil (y m d : Int) : Int :=
  let y' := if m ≤ 2 then y - 1 else y
  let era := y'.fdiv 400
  let yoe := y' - era * 400
  let mp := (m + 9) % 12
  let doy := (153 * mp + 2).fdiv 5 + d - 1
  let doe := yoe * 365 + yoe.fdiv 4 - yoe.fdiv 100 + doy
  era * 146097 + doe - 719468

/-- `new Date(y, monthIndex, d, h, mi, s).getTime()` with component
roll-over, including the legacy mapping of years 0–99 to 1900–1999.
The host timezone is modelled as UTC. -/
def jsDateMs (y mo d h mi s : Int) : Int :=
  let yy := if 0 ≤ y ∧ y ≤ 99 then y + 1900 else y
  let ymTotal := yy * 12 + mo
  let normY := ymTotal.fdiv 12
  let normM := ymTotal - normY * 12
  (daysFromCivil normY (normM + 1) 1 + (d - 1)) * 86400000 +
    (h * 3600 + mi * 60 + s) * 1000

/-- The six `parseInt(substring ...)` components of an adjacent-link
timestamp; `none` when any of them is `NaN` (making the `Date`
invalid). -/
def parseAdjacentTimestamp (ts : List Char) : Option Int := do
  let y ← parseIntJs (jsSubstring ts 0 4)
  let mo ← parseIntJs (jsSubstring ts 4 6)
  let d ← parseIntJs (jsSubstring ts 6 8)
  let h ← parseIntJs (jsSubstring ts 8 10)
  let mi ← parseIntJs (jsSubstring ts 10 12)
  let s ← parseIntJs (jsSubstring ts 12 14)
  pure (jsDateMs y (mo - 1) d h mi s)

/-- `checkAdjacentLinkFreshness` (src/src/utils/LinkUtils.ts lines
113-151).  `now` models `Date.now()`.  Returns
`(shouldProcess, replaceExisting)`. -/
def checkAdjacentLinkFreshness (adjacentTimestamp : Option (List Char))
    (settings : SettingsModel) (now : Int) : Bool × Bool :=
  match adjacentTimestamp with
  | none => (true, true)
  | some ts =>
      if ts.isEmpty then (true, true)
      else
        match parseAdjacentTimestamp ts with
        | some t =>
            if now - t < getFreshnessThresholdMs settings then (false, false)
            else (true, true)
        | none => (true, true)

/-! ### `createArchiveLink` (src/src/utils/LinkUtils.ts lines 88-105) -/

/-- `String.prototype.replace` with a string pattern: first occurrence
only. -/
def replaceFirst (s pat rep : List Char) : List Char :=
  match s with
  | [] => if pat.isEmpty then rep else []
  | c :: cs =>
      if pat.isPrefixOf (c :: cs) then rep ++ (c :: cs).drop pat.length
      else c :: replaceFirst cs pat rep

/-- `archiveUrl.replace(/"/g, '&quot;')`. -/
def escapeQuotes (s : List Char) : List Char :=
  s.flatMap (fun c => if c = '"' then "&quot;".toList else [c])

/-- Whether the original match was an HTML link (`match[2] || match[3]`
truthy). -/
def isHtmlLinkMatch (full : List Char) (m : RMatch) : Bool :=
  !(jsOrStr (m.groupStr full 2) (jsOrStr (m.groupStr full 3) [])).isEmpty

/-- `createArchiveLink(match, archiveUrl, settings)`: the archive
annotation inserted after a link (leading space included). -/
def createArchiveLink (isHtml : Bool) (archiveUrl : List Char)
    (settings : SettingsModel) : List Char :=
  let archiveLinkText :=
    replaceFirst settings.archiveLinkText "{date}".toList settings.archiveDateStr
  if isHtml then
    " <a href=\"".toList ++ escapeQuotes archiveUrl ++ "\">".toList ++
      archiveLinkText ++ "</a>".toList
  else
    " [".toList ++ archiveLinkText ++ "](".toList ++ archiveUrl ++ ")".toList

/-! ### ArchivalClient: `archiveUrl` (src/src/core/archiver.ts lines 144-283)

The remote SPN2 service is modelled by `SpnEnv`: the initiation
response, the result of the read-only `getLatestSnapshotUrl` lookup
(that helper performs its own CDX query and never throws, returning a
snapshot URL or `null`), the sequence of status-poll responses, and
the wall-clock fallback timestamp `format(new Date(), 'yyyyMMddHHmmss')`. -/

/-- Decimal digits of a natural number (the model of JavaScript
`String(n)` for a non-negative integer; structural fuel so the kernel
can evaluate it). -/
def natToCharsFuel : Nat → Nat → List Char
  | 0, _ => []
  | f + 1, n =>
      if n < 10 then [Char.ofNat (48 + n)]
      else natToCharsFuel f (n / 10) ++ [Char.ofNat (48 + n % 10)]

/-- `String(n)` for `n : Nat`. -/
def natToChars (n : Nat) : List Char := natToCharsFuel (n + 1) n

/-- `String(i)` for an integer. -/
def intToChars (i : Int) : List Char :=
  if i < 0 then '-' :: natToChars (-i).toNat else natToChars i.toNat

/-- The JSON body of the `POST /save` response, as far as `archiveUrl`
inspects it. -/
structure SpnInitResponse where
  status : Nat
  jobId : Option (List Char)
  message : Option (List Char)

/-- One status-poll observation. -/
inductive PollResponse where
  | httpError
  | success (timestamp : Option (List Char)) (originalUrl : List Char)
  | error (statusExt : Option (List Char))
  | pending
  | exn

/-- The environment of one `archiveUrl` invocation. -/
structure SpnEnv where
  init : SpnInitResponse
  lookupUrl : Option (List Char)
  polls : Nat → PollResponse
  nowStamp : List Char

/-- `archiveUrl`'s result type. -/
inductive ArchiveResult where
  | success (url : List Char)
  | tooManyCaptures (url : List Char)
  | failed (statusExt : List Char)
deriving DecidableEq, Repr

/-- `!initResponse.json?.job_id` is falsy for a missing or empty id. -/
def SpnInitResponse.hasJobId (r : SpnInitResponse) : Bool :=
  match r.jobId with
  | some s => !s.isEmpty
  | none => false

/-- `initResponse.json?.message?.includes('The same snapshot had been made')`. -/
def SpnInitResponse.duplicateMessage (r : SpnInitResponse) : Bool :=
  match r.message with
  | some m => jsIncludes m "The same snapshot had been made".toList
  | none => false

/-- The polling `while (retries < maxRetries)` loop: each iteration
consumes one poll observation; non-200 responses, pending states and
transport exceptions all increment the same retry counter; falling out
of the loop is a timeout. -/
def pollStatusLoop (polls : Nat → PollResponse) (nowStamp : List Char) :
    Nat → Nat → ArchiveResult
  | _, 0 => .failed "Timeout".toList
  | attempt, remaining + 1 =>
      match polls attempt with
      | .httpError => pollStatusLoop polls nowStamp (attempt + 1) remaining
      | .success ts origUrl =>
          .success ("https://web.archive.org/web/".toList ++ jsOrStr ts nowStamp ++
            "/".toList ++ origUrl)
      | .error ext => .failed (jsOrStr ext "Unknown error".toList)
      | .pending => pollStatusLoop polls nowStamp (attempt + 1) remaining
      | .exn => pollStatusLoop polls nowStamp (attempt + 1) remaining

/-- `archiveUrl(url)` (src/src/core/archiver.ts lines 144-283). -/
def archiveUrl (accessKey secretKey : List Char) (settings : SettingsModel)
    (env : SpnEnv) (url : List Char) : ArchiveResult :=
  if accessKey.isEmpty || secretKey.isEmpty then .failed "Configuration Error".toList
  else
    let substitutedUrl := settings.subst url
    if env.init.status = 429 then
      match env.lookupUrl with
      | some u => .tooManyCaptures u
      | none => .tooManyCaptures ("https://web.archive.org/web/*/".toList ++ substitutedUrl)
    else if env.init.status ≠ 200 || !env.init.hasJobId then
      if env.init.status = 200 && env.init.duplicateMessage then
        match env.lookupUrl with
        | some u => .tooManyCaptures u
        | none => .tooManyCaptures ("https://web.archive.org/web/*/".toList ++ substitutedUrl)
      else
        .failed ("Initiation failed (".toList ++ natToChars env.init.status ++ ")".toList)
    else
      pollStatusLoop env.polls env.nowStamp 0 settings.maxRetries

/-! ### Result cache and `processSingleUrlArchival`
(src/src/core/archiver.ts lines 8-13, 19, 109-134) -/

/-- One entry of the in-memory `recentArchiveCache`. -/
structure CacheEntry where
  status : List Char
  url : List Char
  timestamp : Int
deriving DecidableEq, Repr

/-- The `Map<string, CacheEntry>`: lookup finds the (unique) binding,
`set` overwrites. -/
abbrev Cache := List (List Char × CacheEntry)

/-- `map.get(k)`. -/
def cacheGet (c : Cache) (k : List Char) : Option CacheEntry :=
  (c.find? (fun b => b.1 = k)).map (fun b => b.2)

/-- `map.set(k, v)`. -/
def cacheSet (c : Cache) (k : List Char) (v : CacheEntry) : Cache :=
  (k, v) :: c.filter (fun b => b.1 ≠ k)

/-- `SingleArchiveOutcome` (src/src/core/archiver.ts lines 8-13). -/
inductive SingleArchiveOutcome where
  | cache_hit_success (url : List Char)
  | cache_hit_limited (url : List Char)
  | archived_success (url : List Char)
  | archived_limited (url : List Char)
  | archived_failed (error : List Char)
deriving DecidableEq, Repr

/-- `processSingleUrlArchival(originalUrl, isForce)`: consult the cache
(unless forced), otherwise call `archiveUrl` and cache success /
rate-limited results.  Returns the outcome and the updated cache. -/
def processSingleUrlArchival (accessKey secretKey : List Char)
    (settings : SettingsModel) (env : SpnEnv) (cache : Cache)
    (originalUrl : List Char) (isForce : Bool) (now : Int) :
    SingleArchiveOutcome × Cache :=
  let callPath : SingleArchiveOutcome × Cache :=
    match archiveUrl accessKey secretKey settings env originalUrl with
    | .success u =>
        (.archived_success u, cacheSet cache originalUrl ⟨"success".toList, u, now⟩)
    | .tooManyCaptures u =>
        (.archived_limited u, cacheSet cache originalUrl ⟨"too_many_captures".toList, u, now⟩)
    | .failed e => (.archived_failed e, cache)
  match cacheGet cache originalUrl with
  | some c =>
      if !isForce && decide (now - c.timestamp < getFreshnessThresholdMs settings) then
        if c.status = "success".toList then (.cache_hit_success c.url, cache)
        else (.cache_hit_limited c.url, cache)
      else callPath
  | none => callPath

/-- Whether an outcome came from an actual `archiveUrl` call. -/
def SingleArchiveOutcome.calledArchiveUrl : SingleArchiveOutcome → Bool
  | .cache_hit_success _ => false
  | .cache_hit_limited _ => false
  | _ => true

/-! ### Failure ledger entries (src/src/core/settings.ts `FailedArchiveEntry`,
provided in the sources as `src/unnamed/part_003`) -/

structure FailedArchiveEntry where
  url : List Char
  filePath : List Char
  timestamp : Int
  error : List Char
  retryCount : Nat
deriving DecidableEq, Repr

/-! ### `archiveLinksAction`, file branch
(src/src/core/archiver.ts lines 38-84, 445-584)

The wall clock is modelled as constant during one action run (`now`);
the environments seen by successive `archiveUrl` calls come from the
stream `spn`. -/

/-- `url.match(/^https?:\/\//i)`. -/
def startsWithHttp (url : List Char) : Bool :=
  let l := url.map lowerAscii
  "http://".toList.isPrefixOf l || "https://".toList.isPrefixOf l

/-- The per-run environment of an orchestrator action. -/
structure OrchEnv where
  spn : Nat → SpnEnv
  now : Int

/-- The pieces of a `RegExpMatchArray` that the per-link closures read. -/
structure LinkItem where
  index : Nat
  length : Nat
  url : List Char
  isHtml : Bool
deriving DecidableEq, Repr

/-- Build a `LinkItem` from a match against the content it was computed
on. -/
def LinkItem.of (full : List Char) (m : RMatch) : LinkItem :=
  ⟨m.index, m.matched.length, getUrlFromMatch full m, isHtmlLinkMatch full m⟩

/-- The per-match predicate of `filterLinksForArchiving`
(src/src/core/archiver.ts lines 48-82, file mode: empty context). -/
def keepLinkForArchiving (fullContent : List Char) (isForce : Bool)
    (settings : SettingsModel) (cache : Cache) (now : Int) (m : RMatch) : Bool :=
  let url := getUrlFromMatch fullContent m
  let checkStartIndex := m.index + m.matched.length
  let textAfter := jsSubstring fullContent checkStartIndex (checkStartIndex + 300)
  let freshCached :=
    match cacheGet cache url with
    | some c => decide (now - c.timestamp < getFreshnessThresholdMs settings)
    | none => false
  if !isForce && isFollowedByArchiveLink textAfter && freshCached then false
  else if settings.ignoreTest url || jsIncludes url "web.archive.org/".toList then false
  else if !settings.urlPatternsEmpty && !settings.urlTest url then false
  else if !startsWithHttp url then false
  else true

/-- `filterLinksForArchiving(allMatches, fullContent, isForce)`:
surviving matches plus the number of skipped ones. -/
def filterLinksForArchiving (allMatches : List RMatch) (fullContent : List Char)
    (isForce : Bool) (settings : SettingsModel) (cache : Cache) (now : Int) :
    List RMatch × Nat :=
  let kept := allMatches.filter (keepLinkForArchiving fullContent isForce settings cache now)
  (kept, allMatches.length - kept.length)

/-- The mutable state of one file-mode action run. -/
structure RunState where
  fileContent : List Char
  cache : Cache
  failedArchives : List FailedArchiveEntry
  archivedCount : Nat
  failedCount : Nat
  skippedCount : Nat
  fileModified : Bool
  calls : Nat
deriving Repr

/-- `processSingleLinkFile(match)` (src/src/core/archiver.ts lines
480-554): one link of the normal-mode file branch. -/
def processSingleLinkFile (accessKey secretKey : List Char)
    (settings : SettingsModel) (env : OrchEnv) (filePath : List Char)
    (st : RunState) (item : LinkItem) : RunState :=
  let insertionPosIndex := item.index + item.length
  let textAfterLink := jsSubstring st.fileContent insertionPosIndex (insertionPosIndex + 300)
  let isAdjacent := isFollowedByArchiveLink textAfterLink
  let nextChar := (st.fileContent.drop insertionPosIndex).head?
  let needsSpace := !(nextChar = none || nextChar = some '\n' || nextChar = some ' ')
  if !startsWithHttp item.url then { st with skippedCount := st.skippedCount + 1 }
  else
    let (outcome, cache') :=
      processSingleUrlArchival accessKey secretKey settings (env.spn st.calls)
        st.cache item.url false env.now
    let st := { st with
      cache := cache'
      calls := st.calls + (if outcome.calledArchiveUrl then 1 else 0) }
    let freshCached :=
      match cacheGet st.cache item.url with
      | some c => decide (env.now - c.timestamp < getFreshnessThresholdMs settings)
      | none => false
    if isAdjacent && freshCached then { st with skippedCount := st.skippedCount + 1 }
    else
      match outcome with
      | .cache_hit_success u | .archived_success u =>
          let newArchiveLink := createArchiveLink item.isHtml u settings
          if isAdjacent then
            match jsMatch ADJACENT_ARCHIVE_LINK_REGEX textAfterLink with
            | some em =>
                let oldLinkEndIndex := insertionPosIndex + em.matched.length
                { st with
                  fileContent := st.fileContent.take insertionPosIndex ++
                    newArchiveLink ++ st.fileContent.drop oldLinkEndIndex
                  fileModified := true
                  archivedCount := st.archivedCount + 1 }
            | none => st
          else
            let insertionText := if needsSpace then ' ' :: newArchiveLink else newArchiveLink
            { st with
              fileContent := st.fileContent.take insertionPosIndex ++ insertionText ++
                st.fileContent.drop insertionPosIndex
              fileModified := true
              archivedCount := st.archivedCount + 1 }
      | .cache_hit_limited u | .archived_limited u =>
          if isAdjacent then { st with failedCount := st.failedCount + 1 }
          else
            let newArchiveLink := createArchiveLink item.isHtml u settings
            let insertionText := if needsSpace then ' ' :: newArchiveLink else newArchiveLink
            { st with
              fileContent := st.fileContent.take insertionPosIndex ++ insertionText ++
                st.fileContent.drop insertionPosIndex
              fileModified := true
              archivedCount := st.archivedCount + 1 }
      | .archived_failed e =>
          { st with
            failedCount := st.failedCount + 1
            failedArchives := st.failedArchives ++
              [⟨item.url, filePath, env.now,
                "Archiving failed (".toList ++ jsOrStr (some e) "Unknown error".toList ++
                  ")".toList, 0⟩] }

/-- The file branch of `archiveLinksAction` (src/src/core/archiver.ts
lines 445-577): scan, filter, process the surviving links in reverse
discovery order, threading the mutated content. -/
def archiveLinksActionFile (accessKey secretKey : List Char)
    (settings : SettingsModel) (env : OrchEnv) (filePath : List Char)
    (fileContent : List Char) (cache0 : Cache)
    (ledger0 : List FailedArchiveEntry) : RunState :=
  let fr := filterLinksForArchiving (findLinks fileContent) fileContent false
    settings cache0 env.now
  let items := (fr.1.reverse).map (LinkItem.of fileContent)
  items.foldl (processSingleLinkFile accessKey secretKey settings env filePath)
    ⟨fileContent, cache0, ledger0, 0, 0, fr.2, false, 0⟩

/-! ### `forceReArchiveLinksAction`, file branch
(src/src/core/archiver.ts lines 839-917) -/

/-- `processSingleLinkFileForce(match)` (src/src/core/archiver.ts lines
874-910): one link of the force-mode file branch.  A `cache_hit_*`
outcome cannot occur with `isForce = true`; the `switch` has no case
for it, so it would leave the state unchanged. -/
def processSingleLinkFileForce (accessKey secretKey : List Char)
    (settings : SettingsModel) (env : OrchEnv) (filePath : List Char)
    (st : RunState) (item : LinkItem) : RunState :=
  let insertionPosIndex := item.index + item.length
  let startIndexToRemove := insertionPosIndex
  let textAfterLinkInContent :=
    jsSubstring st.fileContent insertionPosIndex (insertionPosIndex + 300)
  let endIndexToRemove :=
    match jsMatch ADJACENT_ARCHIVE_LINK_REGEX textAfterLinkInContent with
    | some em => insertionPosIndex + em.matched.length
    | none => insertionPosIndex
  let (outcome, cache') :=
    processSingleUrlArchival accessKey secretKey settings (env.spn st.calls)
      st.cache item.url true env.now
  let st := { st with
    cache := cache'
    calls := st.calls + (if outcome.calledArchiveUrl then 1 else 0) }
  match outcome with
  | .archived_success u =>
      let archiveLink := createArchiveLink item.isHtml u settings
      { st with
        fileContent := st.fileContent.take startIndexToRemove ++ archiveLink ++
          st.fileContent.drop endIndexToRemove
        fileModified := true
        archivedCount := st.archivedCount + 1 }
  | .archived_limited _ =>
      { st with
        failedCount := st.failedCount + 1
        failedArchives := st.failedArchives ++
          [⟨item.url, filePath, env.now,
            "Force re-archiving failed (archived_limited)".toList, 0⟩] }
  | .archived_failed e =>
      { st with
        failedCount := st.failedCount + 1
        failedArchives := st.failedArchives ++
          [⟨item.url, filePath, env.now,
            "Force re-archiving failed (".toList ++
              jsOrStr (some e) "Unknown error".toList ++ ")".toList, 0⟩] }
  | _ => st

/-- The file branch of `forceReArchiveLinksAction` (src/src/core/archiver.ts
lines 839-917). -/
def forceReArchiveLinksActionFile (accessKey secretKey : List Char)
    (settings : SettingsModel) (env : OrchEnv) (filePath : List Char)
    (fileContent : List Char) (cache0 : Cache)
    (ledger0 : List FailedArchiveEntry) : RunState :=
  let fr := filterLinksForArchiving (findLinks fileContent) fileContent true
    settings cache0 env.now
  let items := (fr.1.reverse).map (LinkItem.of fileContent)
  items.foldl (processSingleLinkFileForce accessKey secretKey settings env filePath)
    ⟨fileContent, cache0, ledger0, 0, 0, fr.2, false, 0⟩

/-! ### Retry bookkeeping (`retryFailedArchives`,
src/src/core/archiver.ts lines 1079-1533)

The two branches (auto-clear and confirmation-modal) run the same
per-entry algorithm; the model captures that shared core.  The vault is
modelled by `docs : path → content?` for the non-force pre-check; the
best-effort document patch performed after a successful retry goes
through the editor collaborator and does not touch the retry
bookkeeping, so it is outside this model. -/

/-- `findIndex` + `splice(idx, 1)`: remove the first entry with the
given url/filePath pair. -/
def removeEntry (l : List FailedArchiveEntry) (u p : List Char) :
    List FailedArchiveEntry :=
  match l with
  | [] => []
  | e :: r => if e.url = u && e.filePath = p then r else e :: removeEntry r u p

/-- The non-force pre-check (lines 1182-1220): does the entry's document
contain a link with the entry's URL that is already followed by an
archive link? -/
def precheckAdjacentExists (docs : List Char → Option (List Char))
    (entry : FailedArchiveEntry) : Bool :=
  match docs entry.filePath with
  | none => false
  | some content =>
      (findLinks content).any (fun m =>
        getUrlFromMatch content m = entry.url &&
          isFollowedByArchiveLink
            (jsSubstring content (m.index + m.matched.length)
              (m.index + m.matched.length + 300)))

/-- State threaded through the retry loop. -/
structure RetryState where
  parsedEntries : List FailedArchiveEntry
  dataFailed : List FailedArchiveEntry
  successCount : Nat
  stillFailed : List FailedArchiveEntry
  calls : Nat
deriving Repr

/-- One iteration of the retry loop (lines 1178-1306). -/
def retryStep (forceReplace : Bool) (docs : List Char → Option (List Char))
    (accessKey secretKey : List Char) (settings : SettingsModel)
    (envs : Nat → SpnEnv) (st : RetryState) (entry : FailedArchiveEntry) :
    RetryState :=
  let shouldSkip := !forceReplace && precheckAdjacentExists docs entry
  if shouldSkip then
    { st with
      dataFailed := removeEntry st.dataFailed entry.url entry.filePath
      parsedEntries := removeEntry st.parsedEntries entry.url entry.filePath }
  else
    let result := archiveUrl accessKey secretKey settings (envs st.calls) entry.url
    let st := { st with calls := st.calls + 1 }
    match result with
    | .success _ | .tooManyCaptures _ =>
        { st with
          successCount := st.successCount + 1
          dataFailed := removeEntry st.dataFailed entry.url entry.filePath
          parsedEntries := removeEntry st.parsedEntries entry.url entry.filePath }
    | .failed _ =>
        { st with
          stillFailed := st.stillFailed ++
            [{ entry with
                error := "Retry failed (status: failed)".toList
                retryCount := entry.retryCount + 1 }] }

/-- Ledger file formats. -/
inductive LedgerFormat where
  | json
  | csv
deriving DecidableEq, Repr

/-- The retry pass over a parsed ledger snapshot: iterate over a copy of
the parsed list, then persist the updated `parsedEntries` in the same
format — or delete the file when the list became empty (lines
1171-1341). -/
def retryFailedArchives (format : LedgerFormat)
    (entries0 dataFailed0 : List FailedArchiveEntry) (forceReplace : Bool)
    (docs : List Char → Option (List Char)) (accessKey secretKey : List Char)
    (settings : SettingsModel) (envs : Nat → SpnEnv) :
    RetryState × Option (LedgerFormat × List FailedArchiveEntry) :=
  let final := entries0.foldl
    (retryStep forceReplace docs accessKey secretKey settings envs)
    ⟨entries0, dataFailed0, 0, [], 0⟩
  (final, if final.parsedEntries.isEmpty then none else some (format, final.parsedEntries))

/-! ### Ledger export (`export-failed-log` command, src/unnamed/part_002
lines 160-241) and the retry parser (src/src/core/archiver.ts lines
1114-1160) -/

/-- `str.includes(',') || str.includes('"') || str.includes('\n')`. -/
def csvNeedsQuote (s : List Char) : Bool :=
  s.any (fun c => c = ',' || c = '"' || c = '\n')

/-- `s.replace(/"/g, '""')`. -/
def dupQuotes (s : List Char) : List Char :=
  s.flatMap (fun c => if c = '"' then ['"', '"'] else [c])

/-- `escapeCsvField` (both the exporter and the retry writer use this
logic). -/
def escapeCsvField (s : List Char) : List Char :=
  if csvNeedsQuote s then '"' :: (dupQuotes s ++ ['"'])
  else s

/-- `array.join(sep)` for a one-character separator. -/
def joinSep (sep : Char) : List (List Char) → List Char
  | [] => []
  | [l] => l
  | l :: rest => l ++ sep :: joinSep sep rest

/-- The five stringified fields of one ledger entry, before CSV
escaping. -/
def rawCsvFields (e : FailedArchiveEntry) : List (List Char) :=
  [e.url, e.filePath, intToChars e.timestamp, e.error, natToChars e.retryCount]

/-- One CSV row: the escaped fields joined with `,`. -/
def csvRow (e : FailedArchiveEntry) : List Char :=
  joinSep ',' ((rawCsvFields e).map escapeCsvField)

/-- The CSV export: header plus rows, joined with `\n`. -/
def exportCsv (entries : List FailedArchiveEntry) : List Char :=
  joinSep '\n'
    ("URL,FilePath,Timestamp,Error,RetryCount".toList :: entries.map csvRow)

/-- JSON values (the serialized form; `JSON.stringify`/`JSON.parse` are
the external library's inverse pair on this structure). -/
inductive Jv where
  | str : List Char → Jv
  | num : Int → Jv
  | arr : List Jv → Jv
  | obj : List (List Char × Jv) → Jv

/-- The JSON export: `JSON.stringify(failedArchives)` serializes the
entry objects field for field. -/
def exportJson (entries : List FailedArchiveEntry) : Jv :=
  .arr (entries.map (fun e => .obj
    [("url".toList, .str e.url), ("filePath".toList, .str e.filePath),
     ("timestamp".toList, .num e.timestamp), ("error".toList, .str e.error),
     ("retryCount".toList, .num e.retryCount)]))

/-- Object field lookup (`entry.url` etc.). -/
def jvStrField (j : Jv) (name : List Char) : Option (List Char) :=
  match j with
  | .obj fs =>
      match (fs.find? (fun f => f.1 = name)).map (fun f => f.2) with
      | some (Jv.str s) => some s
      | _ => none
  | _ => none

/-- The `{url, filePath}` pairs seen by the JSON branch of the retry
parser (absent fields are JavaScript `undefined`, modelled as `none`). -/
def importedJsonPairs (j : Jv) :
    Option (List (Option (List Char) × Option (List Char))) :=
  match j with
  | .arr l => some (l.map (fun o => (jvStrField o "url".toList, jvStrField o "filePath".toList)))
  | _ => none

/-- `content.split(/\r?\n/)`: split at `\n`, consuming one `\r`
immediately before it. -/
def stripTrailingCR (l : List Char) : List Char :=
  if l.getLast? = some '\r' then l.dropLast else l

/-- Worker for `splitJsLines`. -/
def splitLinesAux : List Char → List Char → List (List Char)
  | [], curr => [curr]
  | c :: rest, curr =>
      if c = '\n' then stripTrailingCR curr :: splitLinesAux rest []
      else splitLinesAux rest (curr ++ [c])

/-- `content.split(/\r?\n/)`. -/
def splitJsLines (content : List Char) : List (List Char) :=
  splitLinesAux content []

/-- The retry parser's per-line CSV state machine (src/src/core/archiver.ts
lines 1128-1148). -/
def parseCsvLineAux : List Char → List (List Char) → List Char → Bool →
    List (List Char)
  | [], parts, current, _ => parts ++ [current]
  | [c], parts, current, inQuotes =>
      if c = '"' then
        if inQuotes then parseCsvLineAux [] parts current false
        else parseCsvLineAux [] parts current true
      else if c = ',' then
        if inQuotes then parseCsvLineAux [] parts (current ++ [',']) true
        else parseCsvLineAux [] (parts ++ [current]) [] false
      else parseCsvLineAux [] parts (current ++ [c]) inQuotes
  | c :: c2 :: rest, parts, current, inQuotes =>
      if c = '"' then
        if inQuotes then
          if c2 = '"' then parseCsvLineAux rest parts (current ++ ['"']) true
          else parseCsvLineAux (c2 :: rest) parts current false
        else parseCsvLineAux (c2 :: rest) parts current true
      else if c = ',' then
        if inQuotes then parseCsvLineAux (c2 :: rest) parts (current ++ [',']) true
        else parseCsvLineAux (c2 :: rest) (parts ++ [current]) [] false
      else parseCsvLineAux (c2 :: rest) parts (current ++ [c]) inQuotes

/-- Parse one CSV line into its fields. -/
def parseCsvLine (line : List Char) : List (List Char) :=
  parseCsvLineAux line [] [] false

/-- The CSV branch of the retry parser: split into lines, drop blank
lines, shift the header, parse each remaining line. -/
def importCsvRecords (content : List Char) : List (List (List Char)) :=
  let lines := (splitJsLines content).filter (fun l => !(jsTrim l).isEmpty)
  (lines.drop 1).map parseCsvLine

/-- The `{url, filePath}` pairs seen by the CSV branch of the retry
parser (`parts[0]`, `parts[1]`; `none` = JavaScript `undefined`). -/
def importedCsvPairs (content : List Char) :
    List (Option (List Char) × Option (List Char)) :=
  (importCsvRecords content).map (fun ps => (ps.get? 0, ps.get? 1))

/-- The `{url, filePath}` pair of a ledger entry. -/
def entryPair (e : FailedArchiveEntry) : Option (List Char) × Option (List Char) :=
  (some e.url, some e.filePath)

/-- No string field of the entry contains a line feed. -/
def entryNoNewline (e : FailedArchiveEntry) : Prop :=
  (∀ c ∈ e.url, c ≠ '\n') ∧ (∀ c ∈ e.filePath, c ≠ '\n') ∧ (∀ c ∈ e.error, c ≠ '\n')

instance (e : FailedArchiveEntry) : Decidable (entryNoNewline e) := by
  unfold entryNoNewline; infer_instance

/-- The invariant of the in-memory result cache: only successful and
rate-limited results are ever stored. -/
def cacheInv (cache : Cache) : Prop :=
  ∀ b ∈ cache, b.2.status = "success".toList ∨ b.2.status = "too_many_captures".toList

/-! ### Concrete fixtures used by witnesses and counterexamples -/

/-- A profile with the default annotation template, the given freshness
window in days, empty pattern lists and no substitution rules. -/
def sampleSettings (days : Nat) : SettingsModel :=
  ⟨"(Archived on {date})".toList, "2026-02-01".toList, days, 3,
   fun _ => false, true, fun _ => true, id⟩

/-- A service that accepts the capture and reports success with the
given snapshot timestamp for `https://example.com`. -/
def spnEnvSuccess (ts : String) : SpnEnv :=
  ⟨⟨200, some "job1".toList, none⟩, none,
   fun _ => PollResponse.success (some ts.toList) "https://example.com".toList,
   "19700101000000".toList⟩

/-- A service that rejects the capture request with HTTP 500. -/
def spnEnvDown : SpnEnv :=
  ⟨⟨500, none, none⟩, none, fun _ => PollResponse.pending, "19700101000000".toList⟩

/-- A rate-limited service: HTTP 429 on initiation, no snapshot found by
the read-only lookup. -/
def spnEnv429 : SpnEnv :=
  ⟨⟨429, none, none⟩, none, fun _ => PollResponse.pending, "19700101000000".toList⟩

/-! ## Lemmas -/

/-- The matches of `findLatestLinkIndex` whose extracted URL equals the
target. -/
def eligibleLinkMatches (content originalUrl : List Char) : List RMatch :=
  (findLinks content).filter (fun m => getUrlFromMatch content m = originalUrl)

theorem bestMatchAux_mem (approx : Nat) (b : RMatch) (ms : List RMatch) :
    bestMatchAux approx b ms ∈ b :: ms := by
  induction ms generalizing b with
  | nil => simp [bestMatchAux]
  | cons c rest ih =>
      simp only [bestMatchAux]
      split
      · exact List.mem_cons_of_mem b (ih c)
      · rcases List.mem_cons.1 (ih b) with h | h
        · rw [h]; exact List.mem_cons_self _ _
        · exact List.mem_cons_of_mem _ (List.mem_cons_of_mem _ h)

theorem bestMatchAux_min (approx : Nat) (b : RMatch) (ms : List RMatch) :
    ∀ m' ∈ b :: ms,
      offDist (bestMatchAux approx b ms).index approx ≤ offDist m'.index approx := by
  induction ms generalizing b with
  | nil => intro m' hm'; simp at hm'; simp [bestMatchAux, hm']
  | cons c rest ih =>
      intro m' hm'
      simp only [bestMatchAux]
      rcases List.mem_cons.1 hm' with rfl | hm'
      · split
        · next hlt =>
            exact le_trans (ih c c (List.mem_cons_self c rest)) (le_of_lt hlt)
        · exact ih m' m' (List.mem_cons_self m' rest)
      · rcases List.mem_cons.1 hm' with rfl | hm'
        · split
          · exact ih m' m' (List.mem_cons_self m' rest)
          · next hnlt =>
              exact le_trans (ih b b (List.mem_cons_self b rest)) (le_of_not_lt hnlt)
        · split
          · exact ih c m' (List.mem_cons_of_mem c hm')
          · exact ih b m' (List.mem_cons_of_mem b hm')

/-! ### CSV round-trip lemmas -/

theorem natToCharsFuel_digits (f : Nat) :
    ∀ n c, c ∈ natToCharsFuel f n → digitChar c = true := by
  induction f with
  | zero => intro n c h; simp [natToCharsFuel] at h
  | succ f ih =>
      intro n c h
      simp only [natToCharsFuel] at h
      split at h
      · next hn =>
          simp at h
          subst h
          interval_cases n <;> decide
      · rcases List.mem_append.1 h with h' | h'
        · exact ih _ _ h'
        · simp at h'
          subst h'
          have : n % 10 < 10 := Nat.mod_lt _ (by norm_num)
          set m := n % 10 with hm
          interval_cases m <;> decide

theorem natToChars_digits (n : Nat) : ∀ c ∈ natToChars n, digitChar c = true :=
  fun c h => natToCharsFuel_digits (n + 1) n c h

theorem natToChars_ne_nil (n : Nat) : natToChars n ≠ [] := by
  simp only [natToChars, natToCharsFuel]
  split
  · simp
  · simp

theorem digitChar_not_special (c : Char) (h : digitChar c = true) :
    c ≠ '\n' ∧ c ≠ '\r' ∧ c ≠ '"' ∧ c ≠ ',' ∧ jsSpace c = false := by
  simp only [digitChar, Bool.and_eq_true, decide_eq_true_eq] at h
  obtain ⟨h1, h2⟩ := h
  refine ⟨?_, ?_, ?_, ?_, ?_⟩
  · rintro rfl; exact absurd h1 (by decide)
  · rintro rfl; exact absurd h1 (by decide)
  · rintro rfl; exact absurd h1 (by decide)
  · rintro rfl; exact absurd h1 (by decide)
  · simp only [jsSpace, Bool.or_eq_false_iff, decide_eq_false_iff_not]
    refine ⟨⟨⟨⟨⟨⟨⟨?_, ?_⟩, ?_⟩, ?_⟩, ?_⟩, ?_⟩, ?_⟩, ?_⟩ <;>
      (rintro rfl; first | exact absurd h1 (by decide) | exact absurd h2 (by decide))

theorem intToChars_mem (i : Int) :
    ∀ c ∈ intToChars i, digitChar c = true ∨ c = '-' := by
  intro c h
  simp only [intToChars] at h
  split at h
  · rcases List.mem_cons.1 h with rfl | h'
    · right; rfl
    · left; exact natToChars_digits _ c h'
  · left; exact natToChars_digits _ c h

theorem mem_dupQuotes (f : List Char) : ∀ c ∈ dupQuotes f, c ∈ f := by
  intro c h
  simp only [dupQuotes, List.mem_flatMap] at h
  obtain ⟨a, ha, hc⟩ := h
  split at hc <;> simp at hc <;> subst hc
  · next he => rw [he] at ha; exact ha
  · exact ha

theorem mem_escapeCsvField (f : List Char) :
    ∀ c ∈ escapeCsvField f, c ∈ f ∨ c = '"' := by
  intro c h
  simp only [escapeCsvField] at h
  split at h
  · rcases List.mem_cons.1 h with rfl | h'
    · right; rfl
    · rcases List.mem_append.1 h' with h'' | h''
      · left; exact mem_dupQuotes f c h''
      · right; simpa using h''
  · left; exact h

theorem csvNeedsQuote_false_prop (f : List Char) (h : csvNeedsQuote f = false) :
    ∀ c ∈ f, c ≠ ',' ∧ c ≠ '"' ∧ c ≠ '\n' := by
  intro c hc
  simp only [csvNeedsQuote, List.any_eq_false] at h
  have hcc := h c hc
  simp only [Bool.or_eq_true, decide_eq_true_eq, not_or] at hcc
  exact ⟨hcc.1.1, hcc.1.2, hcc.2⟩

theorem parseCsvLineAux_cons_other (c : Char) (rest : List Char)
    (parts : List (List Char)) (curr : List Char) (inQuotes : Bool)
    (hq : c ≠ '"') (hc : c ≠ ',') :
    parseCsvLineAux (c :: rest) parts curr inQuotes =
      parseCsvLineAux rest parts (curr ++ [c]) inQuotes := by
  cases rest <;> simp [parseCsvLineAux, hq, hc]

theorem parseCsvLineAux_cons_comma (rest : List Char) (parts : List (List Char))
    (curr : List Char) :
    parseCsvLineAux (',' :: rest) parts curr false =
      parseCsvLineAux rest (parts ++ [curr]) [] false := by
  cases rest <;> simp [parseCsvLineAux]

theorem parseCsvLineAux_cons_comma_inQ (rest : List Char) (parts : List (List Char))
    (curr : List Char) :
    parseCsvLineAux (',' :: rest) parts curr true =
      parseCsvLineAux rest parts (curr ++ [',']) true := by
  cases rest <;> simp [parseCsvLineAux]

theorem parseCsvLineAux_quote_open (rest : List Char) (parts : List (List Char))
    (curr : List Char) :
    parseCsvLineAux ('"' :: rest) parts curr false =
      parseCsvLineAux rest parts curr true := by
  cases rest <;> simp [parseCsvLineAux]

theorem parseCsvLineAux_quote_escaped (rest : List Char) (parts : List (List Char))
    (curr : List Char) :
    parseCsvLineAux ('"' :: '"' :: rest) parts curr true =
      parseCsvLineAux rest parts (curr ++ ['"']) true := by
  simp [parseCsvLineAux]

theorem parseCsvLineAux_quote_close (rest : List Char) (parts : List (List Char))
    (curr : List Char) (h : rest.head? ≠ some '"') :
    parseCsvLineAux ('"' :: rest) parts curr true =
      parseCsvLineAux rest parts curr false := by
  cases rest with
  | nil => simp [parseCsvLineAux]
  | cons c2 r =>
      have h2 : c2 ≠ '"' := by simpa using h
      simp [parseCsvLineAux, h2]

theorem parseCsvLineAux_plain (f : List Char) :
    ∀ (t : List Char) (parts : List (List Char)) (curr : List Char),
      (∀ c ∈ f, c ≠ '"' ∧ c ≠ ',') →
      parseCsvLineAux (f ++ t) parts curr false = parseCsvLineAux t parts (curr ++ f) false := by
  induction f with
  | nil => intro t parts curr _; simp
  | cons c f' ih =>
      intro t parts curr hf
      obtain ⟨hq, hc⟩ := hf c (List.mem_cons_self c f')
      have hf' : ∀ x ∈ f', x ≠ '"' ∧ x ≠ ',' :=
        fun x hx => hf x (List.mem_cons_of_mem c hx)
      rw [List.cons_append, parseCsvLineAux_cons_other c _ _ _ _ hq hc,
        ih t parts (curr ++ [c]) hf']
      simp

theorem parseCsvLineAux_quoted (f : List Char) :
    ∀ (t : List Char) (parts : List (List Char)) (curr : List Char),
      t.head? ≠ some '"' →
      parseCsvLineAux (dupQuotes f ++ '"' :: t) parts curr true =
        parseCsvLineAux t parts (curr ++ f) false := by
  induction f with
  | nil =>
      intro t parts curr ht
      simp only [dupQuotes, List.flatMap_nil, List.nil_append]
      rw [parseCsvLineAux_quote_close t parts curr ht]
      simp
  | cons c f' ih =>
      intro t parts curr ht
      by_cases hcq : c = '"'
      · subst hcq
        have hdup : dupQuotes ('"' :: f') = '"' :: '"' :: dupQuotes f' := by
          simp [dupQuotes]
        rw [hdup, List.cons_append, List.cons_append,
          parseCsvLineAux_quote_escaped, ih t parts (curr ++ ['"']) ht]
        simp
      · have hdup : dupQuotes (c :: f') = c :: dupQuotes f' := by
          simp [dupQuotes, hcq]
        rw [hdup, List.cons_append]
        by_cases hcc : c = ','
        · subst hcc
          rw [parseCsvLineAux_cons_comma_inQ, ih t parts (curr ++ [',']) ht]
          simp
        · rw [parseCsvLineAux_cons_other c _ _ _ _ hcq hcc,
            ih t parts (curr ++ [c]) ht]
          simp

theorem parseCsvLineAux_field (f : List Char) (t : List Char)
    (parts : List (List Char)) (ht : t = [] ∨ t.head? = some ',') :
    parseCsvLineAux (escapeCsvField f ++ t) parts [] false =
      parseCsvLineAux t parts f false := by
  have htq : t.head? ≠ some '"' := by
    rcases ht with rfl | h
    · simp
    · rw [h]; simp
  by_cases hq : csvNeedsQuote f
  · simp only [escapeCsvField, if_pos hq]
    rw [List.cons_append, List.append_assoc, List.cons_append, List.nil_append,
      parseCsvLineAux_quote_open, parseCsvLineAux_quoted f t parts [] htq]
    simp
  · simp only [escapeCsvField, if_neg hq]
    have hf : ∀ c ∈ f, c ≠ '"' ∧ c ≠ ',' := by
      intro c hc
      obtain ⟨h1, h2, _⟩ := csvNeedsQuote_false_prop f (by simpa using hq) c hc
      exact ⟨h2, h1⟩
    rw [parseCsvLineAux_plain f t parts [] hf]
    simp

theorem parseCsvLineAux_fields (fs : List (List Char)) :
    ∀ parts, fs ≠ [] →
      parseCsvLineAux (joinSep ',' (fs.map escapeCsvField)) parts [] false =
        parts ++ fs := by
  induction fs with
  | nil => intro parts h; exact absurd rfl h
  | cons f fs' ih =>
      intro parts _
      cases fs' with
      | nil =>
          have hj : joinSep ',' ([f].map escapeCsvField) = escapeCsvField f ++ [] := by
            simp [joinSep]
          rw [hj, parseCsvLineAux_field f [] parts (Or.inl rfl)]
          simp [parseCsvLineAux]
      | cons f2 fs'' =>
          have hj : joinSep ',' ((f :: f2 :: fs'').map escapeCsvField) =
              escapeCsvField f ++ ',' :: joinSep ',' ((f2 :: fs'').map escapeCsvField) := by
            simp [joinSep]
          rw [hj, parseCsvLineAux_field f _ parts (Or.inr (by simp)),
            parseCsvLineAux_cons_comma]
          have := ih (parts ++ [f]) (by simp)
          simpa using this

theorem splitLinesAux_append (p : List Char) :
    ∀ (t curr : List Char), (∀ c ∈ p, c ≠ '\n') →
      splitLinesAux (p ++ t) curr = splitLinesAux t (curr ++ p) := by
  induction p with
  | nil => intro t curr _; simp
  | cons c p' ih =>
      intro t curr hp
      have hc : c ≠ '\n' := hp c (List.mem_cons_self c p')
      have hp' : ∀ x ∈ p', x ≠ '\n' := fun x hx => hp x (List.mem_cons_of_mem c hx)
      rw [List.cons_append]
      simp only [splitLinesAux, if_neg hc]
      rw [ih t (curr ++ [c]) hp']
      simp

theorem splitJsLines_joinSep (ls : List (List Char)) (hne : ls ≠ [])
    (hl : ∀ l ∈ ls, (∀ c ∈ l, c ≠ '\n') ∧ stripTrailingCR l = l) :
    splitJsLines (joinSep '\n' ls) = ls := by
  induction ls with
  | nil => exact absurd rfl hne
  | cons l ls' ih =>
      cases ls' with
      | nil =>
          show splitLinesAux (joinSep '\n' [l]) [] = [l]
          have : joinSep '\n' [l] = l ++ [] := by simp [joinSep]
          rw [this, splitLinesAux_append l [] [] (hl l (List.mem_cons_self l [])).1]
          simp [splitLinesAux]
      | cons l2 rest =>
          show splitLinesAux (joinSep '\n' (l :: l2 :: rest)) [] = l :: l2 :: rest
          have hj : joinSep '\n' (l :: l2 :: rest) =
              l ++ '\n' :: joinSep '\n' (l2 :: rest) := by simp [joinSep]
          rw [hj, splitLinesAux_append l _ [] (hl l (List.mem_cons_self l _)).1]
          simp only [splitLinesAux, List.nil_append]
          rw [(hl l (List.mem_cons_self l _)).2]
          have := ih (by simp) (fun x hx => hl x (List.mem_cons_of_mem l hx))
          rw [show splitJsLines (joinSep '\n' (l2 :: rest)) =
            splitLinesAux (joinSep '\n' (l2 :: rest)) [] from rfl] at this
          simp [this]

theorem jsTrim_ne_nil (l : List Char) (c : Char) (hc : c ∈ l)
    (hs : jsSpace c = false) : (jsTrim l).isEmpty = false := by
  have hcd : c ∈ l.dropWhile jsSpace := by
    have hsplit := List.takeWhile_append_dropWhile (p := jsSpace) (l := l)
    rcases List.mem_append.1 (by rw [hsplit]; exact hc :
        c ∈ l.takeWhile jsSpace ++ l.dropWhile jsSpace) with h | h
    · exact absurd (List.mem_takeWhile_imp h) (by simp [hs])
    · exact h
  have hrev : c ∈ (l.dropWhile jsSpace).reverse := List.mem_reverse.2 hcd
  have hne : (l.dropWhile jsSpace).reverse.dropWhile jsSpace ≠ [] := by
    intro hnil
    have := (List.dropWhile_eq_nil_iff).1 hnil c hrev
    simp [hs] at this
  have hnn : jsTrim l ≠ [] := by
    simp only [jsTrim, ne_eq, List.reverse_eq_nil_iff]
    exact hne
  cases hJ : jsTrim l with
  | nil => exact absurd hJ hnn
  | cons a t => rfl

theorem mem_joinSep (sep : Char) (ls : List (List Char)) :
    ∀ c ∈ joinSep sep ls, c = sep ∨ ∃ l ∈ ls, c ∈ l := by
  induction ls with
  | nil => intro c h; simp [joinSep] at h
  | cons l ls' ih =>
      cases ls' with
      | nil => intro c h; right; exact ⟨l, by simp, by simpa [joinSep] using h⟩
      | cons l2 rest =>
          intro c h
          have hj : joinSep sep (l :: l2 :: rest) =
              l ++ sep :: joinSep sep (l2 :: rest) := by simp [joinSep]
          rw [hj] at h
          rcases List.mem_append.1 h with h' | h'
          · right; exact ⟨l, by simp, h'⟩
          · rcases List.mem_cons.1 h' with rfl | h''
            · left; rfl
            · rcases ih c h'' with h3 | ⟨l3, hl3, hcl3⟩
              · left; exact h3
              · right; exact ⟨l3, List.mem_cons_of_mem l hl3, hcl3⟩

theorem getLast?_append_right (l₁ l₂ : List Char) (h : l₂ ≠ []) :
    (l₁ ++ l₂).getLast? = l₂.getLast? := by
  induction l₁ with
  | nil => rfl
  | cons a l₁ ih =>
      rw [List.cons_append]
      cases hl : l₁ ++ l₂ with
      | nil => exact absurd (List.append_eq_nil.1 hl).2 h
      | cons b t => rw [List.getLast?_cons_cons, ← hl, ih]

theorem csvNeedsQuote_natToChars (n : Nat) :
    csvNeedsQuote (natToChars n) = false := by
  simp only [csvNeedsQuote, List.any_eq_false]
  intro c hc
  obtain ⟨h1, -, h3, h4, -⟩ := digitChar_not_special c (natToChars_digits n c hc)
  simp [h1, h3, h4]

theorem csvRow_getLast (e : FailedArchiveEntry) :
    ∃ d, (csvRow e).getLast? = some d ∧ digitChar d = true := by
  have hx : escapeCsvField (natToChars e.retryCount) = natToChars e.retryCount := by
    simp [escapeCsvField, csvNeedsQuote_natToChars]
  have hne := natToChars_ne_nil e.retryCount
  have hj : csvRow e =
      escapeCsvField e.url ++ ',' ::
        (escapeCsvField e.filePath ++ ',' ::
          (escapeCsvField (intToChars e.timestamp) ++ ',' ::
            (escapeCsvField e.error ++ ',' :: natToChars e.retryCount))) := by
    simp [csvRow, rawCsvFields, joinSep, hx]
  obtain ⟨d, hd⟩ : ∃ d, (natToChars e.retryCount).getLast? = some d := by
    cases hnx : natToChars e.retryCount with
    | nil => exact absurd hnx hne
    | cons a t => exact ⟨(a :: t).getLast (by simp), List.getLast?_eq_getLast _ _⟩
  refine ⟨d, ?_, ?_⟩
  · rw [hj, getLast?_append_right _ _ (by simp),
      show (',' :: (escapeCsvField e.filePath ++ ',' ::
        (escapeCsvField (intToChars e.timestamp) ++ ',' ::
          (escapeCsvField e.error ++ ',' :: natToChars e.retryCount)))).getLast? =
        _ from rfl]
    rw [show ∀ (x : List Char), (',' :: x).getLast? = ([','] ++ x).getLast? from
      fun x => rfl]
    rw [getLast?_append_right _ _ (by
      simp only [ne_eq, List.append_eq_nil, not_and]
      intro; simp)]
    rw [getLast?_append_right _ _ (by simp)]
    rw [show ∀ (x : List Char), (',' :: x).getLast? = ([','] ++ x).getLast? from
      fun x => rfl]
    rw [getLast?_append_right _ _ (by
      simp only [ne_eq, List.append_eq_nil, not_and]
      intro; simp)]
    rw [getLast?_append_right _ _ (by simp)]
    rw [show ∀ (x : List Char), (',' :: x).getLast? = ([','] ++ x).getLast? from
      fun x => rfl]
    rw [getLast?_append_right _ _ (by
      simp only [ne_eq, List.append_eq_nil, not_and]
      intro; simp)]
    rw [getLast?_append_right _ _ (by simp)]
    rw [show ∀ (x : List Char), (',' :: x).getLast? = ([','] ++ x).getLast? from
      fun x => rfl]
    rw [getLast?_append_right _ _ hne]
    exact hd
  · have hdm : d ∈ natToChars e.retryCount := by
      cases hnx : natToChars e.retryCount with
      | nil => exact absurd hnx hne
      | cons a t =>
          rw [hnx, List.getLast?_eq_getLast _ (by simp)] at hd
          have hmem := List.getLast_mem (l := a :: t) (by simp)
          rw [Option.some_inj.1 hd] at hmem
          exact hmem
    exact natToChars_digits _ d hdm

theorem csvRow_noNewline (e : FailedArchiveEntry) (h : entryNoNewline e) :
    ∀ c ∈ csvRow e, c ≠ '\n' := by
  obtain ⟨hu, hp, he⟩ := h
  intro c hc
  rcases mem_joinSep ',' _ c hc with rfl | ⟨l, hl, hcl⟩
  · decide
  · simp only [rawCsvFields, List.map_cons, List.map_nil, List.mem_cons,
      List.mem_singleton] at hl
    have hfield : ∀ (f : List Char), (∀ x ∈ f, x ≠ '\n') → l = escapeCsvField f →
        c ≠ '\n' := by
      rintro f hf rfl
      rcases mem_escapeCsvField f c hcl with h' | rfl
      · exact hf c h'
      · decide
    rcases hl with rfl | rfl | rfl | rfl | rfl | h0
    · exact hfield e.url hu rfl
    · exact hfield e.filePath hp rfl
    · refine hfield (intToChars e.timestamp) ?_ rfl
      intro x hx
      rcases intToChars_mem e.timestamp x hx with hd | rfl
      · exact (digitChar_not_special x hd).1
      · decide
    · exact hfield e.error he rfl
    · refine hfield (natToChars e.retryCount) ?_ rfl
      intro x hx
      exact (digitChar_not_special x (natToChars_digits _ x hx)).1
    · simp at h0

theorem csvRow_strip (e : FailedArchiveEntry) :
    stripTrailingCR (csvRow e) = csvRow e := by
  obtain ⟨d, hd, hdd⟩ := csvRow_getLast e
  simp only [stripTrailingCR, hd]
  rw [if_neg]
  intro hcontra
  obtain ⟨-, h2, -⟩ := digitChar_not_special d hdd
  exact h2 (by simpa using hcontra)

theorem csvRow_trim (e : FailedArchiveEntry) :
    (jsTrim (csvRow e)).isEmpty = false := by
  obtain ⟨d, hd, hdd⟩ := csvRow_getLast e
  have hmem : d ∈ csvRow e := by
    cases hrow : csvRow e with
    | nil => rw [hrow] at hd; simp at hd
    | cons a t =>
        rw [hrow, List.getLast?_eq_getLast _ (by simp)] at hd
        have hmem := List.getLast_mem (l := a :: t) (by simp)
        rw [Option.some_inj.1 hd] at hmem
        exact hmem
  exact jsTrim_ne_nil _ d hmem (digitChar_not_special d hdd).2.2.2.2

theorem parseCsvLine_csvRow (e : FailedArchiveEntry) :
    parseCsvLine (csvRow e) = rawCsvFields e := by
  have := parseCsvLineAux_fields (rawCsvFields e) [] (by simp [rawCsvFields])
  simpa [parseCsvLine, csvRow] using this

theorem exportCsv_import (entries : List FailedArchiveEntry)
    (h : ∀ e ∈ entries, entryNoNewline e) :
    importedCsvPairs (exportCsv entries) = entries.map entryPair := by
  have hsplit : splitJsLines (joinSep '\n'
      ("URL,FilePath,Timestamp,Error,RetryCount".toList :: entries.map csvRow)) =
      "URL,FilePath,Timestamp,Error,RetryCount".toList :: entries.map csvRow := by
    refine splitJsLines_joinSep _ (by simp) ?_
    intro l hl
    rcases List.mem_cons.1 hl with rfl | hl'
    · exact ⟨by decide, by decide⟩
    · obtain ⟨e, he, rfl⟩ := List.mem_map.1 hl'
      exact ⟨csvRow_noNewline e (h e he), csvRow_strip e⟩
  simp only [importedCsvPairs, importCsvRecords, exportCsv]
  rw [hsplit]
  have hfilter : ("URL,FilePath,Timestamp,Error,RetryCount".toList ::
      entries.map csvRow).filter (fun l => !(jsTrim l).isEmpty) =
      "URL,FilePath,Timestamp,Error,RetryCount".toList :: entries.map csvRow := by
    rw [List.filter_cons_of_pos (by decide)]
    congr 1
    refine List.filter_eq_self.2 ?_
    intro r hr
    obtain ⟨e, he, rfl⟩ := List.mem_map.1 hr
    simp [csvRow_trim e]
  rw [hfilter]
  simp only [List.drop_succ_cons, List.drop_zero, List.map_map]
  refine List.map_congr_left ?_
  intro e he
  show ((parseCsvLine (csvRow e)).get? 0, (parseCsvLine (csvRow e)).get? 1) = entryPair e
  rw [parseCsvLine_csvRow e]
  simp [rawCsvFields, entryPair]

theorem exportJson_import (entries : List FailedArchiveEntry) :
    importedJsonPairs (exportJson entries) = some (entries.map entryPair) := by
  simp only [exportJson, importedJsonPairs, List.map_map]
  refine congrArg some (List.map_congr_left ?_)
  intro e _
  rfl

/-! ### Orchestrator lemmas -/

theorem archiveUrl_noKeys (accessKey secretKey : List Char) (settings : SettingsModel)
    (env : SpnEnv) (url : List Char)
    (h : (accessKey.isEmpty || secretKey.isEmpty) = true) :
    archiveUrl accessKey secretKey settings env url = .failed "Configuration Error".toList := by
  simp [archiveUrl, h]

theorem keepLink_startsWithHttp (fullContent : List Char) (isForce : Bool)
    (settings : SettingsModel) (cache : Cache) (now : Int) (m : RMatch)
    (h : keepLinkForArchiving fullContent isForce settings cache now m = true) :
    startsWithHttp (getUrlFromMatch fullContent m) = true := by
  simp only [keepLinkForArchiving] at h
  split_ifs at h
  next h1 h2 h3 h4 =>
    by_cases hhttp : startsWithHttp (getUrlFromMatch fullContent m) = true
    · exact hhttp
    · exact absurd (by simpa using hhttp) h4

theorem processSingleLinkFile_noKeys (accessKey secretKey : List Char)
    (settings : SettingsModel) (env : OrchEnv) (filePath : List Char)
    (st : RunState) (item : LinkItem)
    (hkeys : (accessKey.isEmpty || secretKey.isEmpty) = true)
    (hcache : st.cache = []) (hurl : startsWithHttp item.url = true) :
    processSingleLinkFile accessKey secretKey settings env filePath st item =
      { st with
        failedCount := st.failedCount + 1
        calls := st.calls + 1
        failedArchives := st.failedArchives ++
          [⟨item.url, filePath, env.now,
            "Archiving failed (Configuration Error)".toList, 0⟩] } := by
  simp only [processSingleLinkFile, hurl, Bool.not_true, Bool.false_eq_true,
    if_false, processSingleUrlArchival, hcache,
    archiveUrl_noKeys accessKey secretKey settings _ _ hkeys]
  simp [cacheGet, SingleArchiveOutcome.calledArchiveUrl, jsOrStr]

theorem foldl_processSingleLinkFile_noKeys (accessKey secretKey : List Char)
    (settings : SettingsModel) (env : OrchEnv) (filePath : List Char)
    (hkeys : (accessKey.isEmpty || secretKey.isEmpty) = true) :
    ∀ (items : List LinkItem) (st : RunState), st.cache = [] →
      (∀ i ∈ items, startsWithHttp i.url = true) →
      items.foldl (processSingleLinkFile accessKey secretKey settings env filePath) st =
        { st with
          failedCount := st.failedCount + items.length
          calls := st.calls + items.length
          failedArchives := st.failedArchives ++ items.map
            (fun i => ⟨i.url, filePath, env.now,
              "Archiving failed (Configuration Error)".toList, 0⟩) } := by
  intro items
  induction items with
  | nil => intro st hc _; simp
  | cons i rest ih =>
      intro st hc hitems
      obtain ⟨cf, ca, fa, ac, fc, sc, fm, cl⟩ := st
      rw [List.foldl_cons,
        processSingleLinkFile_noKeys accessKey secretKey settings env filePath _ i
          hkeys hc (hitems i (List.mem_cons_self i rest)),
        ih _ (by simpa using hc) (fun x hx => hitems x (List.mem_cons_of_mem i hx))]
      simp only [List.length_cons, List.map_cons, RunState.mk.injEq, List.append_assoc,
        List.cons_append, List.nil_append, true_and, and_true]
      omega

theorem cacheGet_status (cache : Cache) (url : List Char) (c : CacheEntry)
    (hinv : cacheInv cache) (hc : cacheGet cache url = some c) :
    c.status = "success".toList ∨ c.status = "too_many_captures".toList := by
  simp only [cacheGet, Option.map_eq_some'] at hc
  obtain ⟨b, hb, rfl⟩ := hc
  exact hinv b (List.mem_of_find?_eq_some hb)

theorem cacheInv_set (cache : Cache) (k : List Char) (v : CacheEntry)
    (hinv : cacheInv cache)
    (hv : v.status = "success".toList ∨ v.status = "too_many_captures".toList) :
    cacheInv (cacheSet cache k v) := by
  intro b hb
  simp only [cacheSet, List.mem_cons] at hb
  rcases hb with rfl | hb
  · exact hv
  · exact hinv b (List.mem_of_mem_filter hb)

/-! ## Claims -/

/-- C1: for every text and target URL, if at least one link match in the
text has extracted URL exactly equal to the target URL,
`findLatestLinkIndex` returns the offset of a matching occurrence whose
distance to the approximate original offset is minimal; if no match has
that URL, it returns `null` (a valid outcome, not an error). -/
theorem C1_findLatestLinkIndex_nearest (content originalUrl : List Char)
    (approximateIndex : Nat) :
    (eligibleLinkMatches content originalUrl = [] →
      findLatestLinkIndex content originalUrl approximateIndex = none) ∧
    (eligibleLinkMatches content originalUrl ≠ [] →
      ∃ m ∈ eligibleLinkMatches content originalUrl,
        findLatestLinkIndex content originalUrl approximateIndex = some m.index ∧
        ∀ m' ∈ eligibleLinkMatches content originalUrl,
          offDist m.index approximateIndex ≤ offDist m'.index approximateIndex) := by
  have hdef : findLatestLinkIndex content originalUrl approximateIndex =
      match eligibleLinkMatches content originalUrl with
      | [] => none
      | m :: ms => some (bestMatchAux approximateIndex m ms).index := rfl
  constructor
  · intro h
    rw [hdef, h]
  · intro h
    cases heq : eligibleLinkMatches content originalUrl with
    | nil => exact absurd heq h
    | cons m ms =>
        refine ⟨bestMatchAux approximateIndex m ms, ?_, ?_, ?_⟩
        · exact bestMatchAux_mem approximateIndex m ms
        · rw [hdef, heq]
        · exact bestMatchAux_min approximateIndex m ms

/-- C1 witness: in
`"[Link](https://example.com) and [Link](https://example.com)"` with
approximate offset 32 (occurrence 2), the function returns occurrence
2's offset 32. -/
theorem C1_witness :
    (eligibleLinkMatches
      "[Link](https://example.com) and [Link](https://example.com)".toList
      "https://example.com".toList ≠ []) ∧
    (findLatestLinkIndex
      "[Link](https://example.com) and [Link](https://example.com)".toList
      "https://example.com".toList 32 = some 32) ∧
    (∃ m ∈ eligibleLinkMatches
        "[Link](https://example.com) and [Link](https://example.com)".toList
        "https://example.com".toList,
      findLatestLinkIndex
        "[Link](https://example.com) and [Link](https://example.com)".toList
        "https://example.com".toList 32 = some m.index ∧
      ∀ m' ∈ eligibleLinkMatches
          "[Link](https://example.com) and [Link](https://example.com)".toList
          "https://example.com".toList,
        offDist m.index 32 ≤ offDist m'.index 32) :=
  ⟨by decide, by decide,
   (C1_findLatestLinkIndex_nearest
     "[Link](https://example.com) and [Link](https://example.com)".toList
     "https://example.com".toList 32).2 (by decide)⟩

/-- C2: the markdown balanced-parenthesis scenario holds (the Erica
input yields exactly one match with the full URL including `(plant)`),
but the bare-URL scenario fails on the code: the plain-URL alternative
of `LINK_REGEX` is anchored to line starts (`^` under the `m` flag), so
`"(See https://example.com)"` — and any other mid-line bare URL, as in
the repository's own tests — produces no match at all, rather than a
match with the outer parenthesis excluded. -/
theorem C2_linkRegex_paren_eval :
    (foundUrls "[Erica](https://en.wikipedia.org/wiki/Erica_(plant))".toList =
      ["https://en.wikipedia.org/wiki/Erica_(plant)".toList]) ∧
    (findLinks "(See https://example.com)".toList = []) ∧
    (findLinks "Visit https://example.com for more info.".toList = []) ∧
    (foundUrls "https://example.com) x".toList = ["https://example.com)".toList]) := by
  decide

/-- C3: `checkAdjacentLinkFreshness` returns
`{shouldProcess := true, replaceExisting := true}` for an absent or
wildcard timestamp, `{false, false}` for a parseable timestamp younger
than the freshness window, and `{true, true}` for an older or
unparseable one. -/
theorem C3_checkAdjacentLinkFreshness_spec (settings : SettingsModel) (now : Int) :
    (checkAdjacentLinkFreshness none settings now = (true, true)) ∧
    (checkAdjacentLinkFreshness (some "*".toList) settings now = (true, true)) ∧
    (∀ ts t, parseAdjacentTimestamp ts = some t →
      (now - t < getFreshnessThresholdMs settings →
        checkAdjacentLinkFreshness (some ts) settings now = (false, false)) ∧
      (¬(now - t < getFreshnessThresholdMs settings) →
        checkAdjacentLinkFreshness (some ts) settings now = (true, true))) ∧
    (∀ ts, parseAdjacentTimestamp ts = none →
      checkAdjacentLinkFreshness (some ts) settings now = (true, true)) := by
  refine ⟨rfl, rfl, ?_, ?_⟩
  · intro ts t hparse
    have hne : ts.isEmpty = false := by
      cases ts with
      | nil => simp [parseAdjacentTimestamp, jsSubstring, parseIntJs] at hparse
      | cons a l => rfl
    constructor
    · intro hfresh
      simp [checkAdjacentLinkFreshness, hne, hparse, hfresh]
    · intro hstale
      simp [checkAdjacentLinkFreshness, hne, hparse, hstale]
  · intro ts hparse
    cases hts : ts.isEmpty
    · simp [checkAdjacentLinkFreshness, hts, hparse]
    · simp [checkAdjacentLinkFreshness, hts]

/-- C3 witness: timestamp `"20200101000000"` with a 90-day window
evaluated at 2025-01-01 (far in the future) yields
`{shouldProcess := true, replaceExisting := true}`. -/
theorem C3_witness :
    checkAdjacentLinkFreshness (some "20200101000000".toList) (sampleSettings 90)
      1735689600000 = (true, true) :=
  (((C3_checkAdjacentLinkFreshness_spec (sampleSettings 90) 1735689600000).2.2.1
    "20200101000000".toList 1577836800000 (by decide)).2 (by decide))

/-- C4: with configured keys, a submission that receives HTTP 429 (or a
duplicate-capture message without a job id) never yields `failed`: it
yields `too_many_captures` carrying the looked-up snapshot URL when the
read-only lookup finds one, and otherwise the wildcard fallback
`https://web.archive.org/web/*/<submitted url>`. -/
theorem C4_archiveUrl_rateLimited (accessKey secretKey : List Char)
    (settings : SettingsModel) (env : SpnEnv) (url : List Char)
    (hak : accessKey ≠ []) (hsk : secretKey ≠ [])
    (h : env.init.status = 429 ∨
      (env.init.status = 200 ∧ env.init.hasJobId = false ∧
        env.init.duplicateMessage = true)) :
    archiveUrl accessKey secretKey settings env url =
      .tooManyCaptures (match env.lookupUrl with
        | some u => u
        | none => "https://web.archive.org/web/*/".toList ++ settings.subst url) ∧
    ∀ e, archiveUrl accessKey secretKey settings env url ≠ .failed e := by
  have hkeys : (accessKey.isEmpty || secretKey.isEmpty) = false := by
    cases accessKey with
    | nil => exact absurd rfl hak
    | cons a l =>
        cases secretKey with
        | nil => exact absurd rfl hsk
        | cons b m => rfl
  have harch : archiveUrl accessKey secretKey settings env url =
      .tooManyCaptures (match env.lookupUrl with
        | some u => u
        | none => "https://web.archive.org/web/*/".toList ++ settings.subst url) := by
    rcases h with h429 | ⟨h200, hjob, hdup⟩
    · simp only [archiveUrl, hkeys, Bool.false_eq_true, if_false, h429, if_pos rfl]
      cases env.lookupUrl <;> simp
    · have hne : env.init.status ≠ 429 := by rw [h200]; decide
      simp only [archiveUrl, hkeys, Bool.false_eq_true, if_false, if_neg hne,
        hjob, h200, hdup]
      cases env.lookupUrl <;> simp
  refine ⟨harch, ?_⟩
  intro e
  rw [harch]
  simp

/-- C4 witness: HTTP 429 with no snapshot found by the lookup yields the
wildcard fallback URL. -/
theorem C4_witness :
    archiveUrl "k".toList "s".toList (sampleSettings 0) spnEnv429
      "https://x.org/p".toList =
      .tooManyCaptures "https://web.archive.org/web/*/https://x.org/p".toList ∧
    ∀ e, archiveUrl "k".toList "s".toList (sampleSettings 0) spnEnv429
      "https://x.org/p".toList ≠ .failed e :=
  C4_archiveUrl_rateLimited "k".toList "s".toList (sampleSettings 0) spnEnv429
    "https://x.org/p".toList (by decide) (by decide) (Or.inl (by decide))

set_option maxRecDepth 100000 in
/-- C5 counterexample: with the default freshness window of 0 days
(`archiveFreshnessDays = 0`), immediately re-running normal-mode
archiving over a document that was just successfully archived does NOT
produce zero edits: the link is re-processed (`archivedCount = 1`) and
its annotation is replaced, changing the document text when the new
snapshot timestamp differs. -/
theorem C5_counterexample :
    (let st1 := archiveLinksActionFile "k".toList "s".toList (sampleSettings 0)
      ⟨fun _ => spnEnvSuccess "20260101000000", 1000⟩ "note.md".toList
      "[Link](https://example.com)".toList [] []
     let st2 := archiveLinksActionFile "k".toList "s".toList (sampleSettings 0)
      ⟨fun _ => spnEnvSuccess "20260102000000", 2000⟩ "note.md".toList
      st1.fileContent st1.cache []
     st2.archivedCount = 1 ∧ st2.fileModified = true ∧
       st2.fileContent ≠ st1.fileContent) := by
  decide

/-- C5 (amended): re-running normal-mode archiving produces zero new
edits whenever every link match of the document is dropped by
`filterLinksForArchiving` — which is what happens on an immediate
re-run when the freshness window is positive, where each just-archived
link is followed by the fresh annotation and covered by a fresh cache
entry; with the default window of 0 days the skip condition fails and
the link is re-processed (see the counterexample). -/
theorem C5_rerun_zeroEdits (accessKey secretKey : List Char)
    (settings : SettingsModel) (env : OrchEnv) (filePath content : List Char)
    (cache0 : Cache) (ledger0 : List FailedArchiveEntry)
    (h : (filterLinksForArchiving (findLinks content) content false settings
      cache0 env.now).1 = []) :
    (archiveLinksActionFile accessKey secretKey settings env filePath content
        cache0 ledger0).fileContent = content ∧
    (archiveLinksActionFile accessKey secretKey settings env filePath content
        cache0 ledger0).archivedCount = 0 ∧
    (archiveLinksActionFile accessKey secretKey settings env filePath content
        cache0 ledger0).failedCount = 0 ∧
    (archiveLinksActionFile accessKey secretKey settings env filePath content
        cache0 ledger0).failedArchives = ledger0 ∧
    (archiveLinksActionFile accessKey secretKey settings env filePath content
        cache0 ledger0).fileModified = false := by
  simp only [archiveLinksActionFile, h]
  simp

set_option maxRecDepth 100000 in
/-- C5 witness: with a 90-day freshness window, after a successful
archive-and-insert run the immediate re-run (same session: cache kept)
leaves the document byte-for-byte unchanged and archives nothing. -/
theorem C5_witness :
    (archiveLinksActionFile "k".toList "s".toList (sampleSettings 90)
        ⟨fun _ => spnEnvSuccess "20260102000000", 2000⟩ "note.md".toList
        (archiveLinksActionFile "k".toList "s".toList (sampleSettings 90)
          ⟨fun _ => spnEnvSuccess "20260101000000", 1000⟩ "note.md".toList
          "[Link](https://example.com)".toList [] []).fileContent
        (archiveLinksActionFile "k".toList "s".toList (sampleSettings 90)
          ⟨fun _ => spnEnvSuccess "20260101000000", 1000⟩ "note.md".toList
          "[Link](https://example.com)".toList [] []).cache
        []).fileContent =
      (archiveLinksActionFile "k".toList "s".toList (sampleSettings 90)
        ⟨fun _ => spnEnvSuccess "20260101000000", 1000⟩ "note.md".toList
        "[Link](https://example.com)".toList [] []).fileContent ∧
    (archiveLinksActionFile "k".toList "s".toList (sampleSettings 90)
        ⟨fun _ => spnEnvSuccess "20260102000000", 2000⟩ "note.md".toList
        (archiveLinksActionFile "k".toList "s".toList (sampleSettings 90)
          ⟨fun _ => spnEnvSuccess "20260101000000", 1000⟩ "note.md".toList
          "[Link](https://example.com)".toList [] []).fileContent
        (archiveLinksActionFile "k".toList "s".toList (sampleSettings 90)
          ⟨fun _ => spnEnvSuccess "20260101000000", 1000⟩ "note.md".toList
          "[Link](https://example.com)".toList [] []).cache
        []).archivedCount = 0 :=
  ⟨(C5_rerun_zeroEdits "k".toList "s".toList (sampleSettings 90)
      ⟨fun _ => spnEnvSuccess "20260102000000", 2000⟩ "note.md".toList
      (archiveLinksActionFile "k".toList "s".toList (sampleSettings 90)
        ⟨fun _ => spnEnvSuccess "20260101000000", 1000⟩ "note.md".toList
        "[Link](https://example.com)".toList [] []).fileContent
      (archiveLinksActionFile "k".toList "s".toList (sampleSettings 90)
        ⟨fun _ => spnEnvSuccess "20260101000000", 1000⟩ "note.md".toList
        "[Link](https://example.com)".toList [] []).cache
      [] (by decide)).1,
   (C5_rerun_zeroEdits "k".toList "s".toList (sampleSettings 90)
      ⟨fun _ => spnEnvSuccess "20260102000000", 2000⟩ "note.md".toList
      (archiveLinksActionFile "k".toList "s".toList (sampleSettings 90)
        ⟨fun _ => spnEnvSuccess "20260101000000", 1000⟩ "note.md".toList
        "[Link](https://example.com)".toList [] []).fileContent
      (archiveLinksActionFile "k".toList "s".toList (sampleSettings 90)
        ⟨fun _ => spnEnvSuccess "20260101000000", 1000⟩ "note.md".toList
        "[Link](https://example.com)".toList [] []).cache
      [] (by decide)).2.1⟩

/-- C6: in a force-mode file run, when the submission for a link
hard-fails, the per-link step leaves the document text byte-for-byte
unchanged (any existing annotation untouched) and appends exactly one
FailureLedger entry for that link. -/
theorem C6_forceFailedFrame (accessKey secretKey : List Char)
    (settings : SettingsModel) (env : OrchEnv) (filePath : List Char)
    (st : RunState) (item : LinkItem) (e : List Char)
    (h : archiveUrl accessKey secretKey settings (env.spn st.calls) item.url = .failed e) :
    (processSingleLinkFileForce accessKey secretKey settings env filePath st item).fileContent
        = st.fileContent ∧
    (processSingleLinkFileForce accessKey secretKey settings env filePath st item).failedArchives
        = st.failedArchives ++
          [⟨item.url, filePath, env.now,
            "Force re-archiving failed (".toList ++
              jsOrStr (some e) "Unknown error".toList ++ ")".toList, 0⟩] := by
  simp only [processSingleLinkFileForce, processSingleUrlArchival, h]
  cases hget : cacheGet st.cache item.url <;> simp

/-- C6 witness: a concrete force-mode step whose submission fails with
HTTP 500 leaves the content unchanged and appends the one entry. -/
theorem C6_witness :
    (processSingleLinkFileForce "k".toList "s".toList (sampleSettings 0)
        ⟨fun _ => spnEnvDown, 1000⟩ "note.md".toList
        ⟨"[A](https://aaa.com) x".toList, [], [], 0, 0, 0, false, 0⟩
        ⟨0, 20, "https://aaa.com".toList, false⟩).fileContent =
      "[A](https://aaa.com) x".toList ∧
    (processSingleLinkFileForce "k".toList "s".toList (sampleSettings 0)
        ⟨fun _ => spnEnvDown, 1000⟩ "note.md".toList
        ⟨"[A](https://aaa.com) x".toList, [], [], 0, 0, 0, false, 0⟩
        ⟨0, 20, "https://aaa.com".toList, false⟩).failedArchives =
      [] ++ [⟨"https://aaa.com".toList, "note.md".toList, 1000,
        "Force re-archiving failed (".toList ++
          jsOrStr (some "Initiation failed (500)".toList) "Unknown error".toList ++
          ")".toList, 0⟩] :=
  C6_forceFailedFrame "k".toList "s".toList (sampleSettings 0)
    ⟨fun _ => spnEnvDown, 1000⟩ "note.md".toList
    ⟨"[A](https://aaa.com) x".toList, [], [], 0, 0, 0, false, 0⟩
    ⟨0, 20, "https://aaa.com".toList, false⟩
    "Initiation failed (500)".toList (by decide)

/-- C7: on a retry pass where the entry's retry fails again, the code
keeps the entry in the persisted list in the same format — but with its
original `retryCount` and `error` unchanged: the incremented copy with
the new failure detail is accumulated only in the dead `stillFailed`
list (used for nothing but the summary count), contradicting the spec's
"increment its retry counter, record the new failure detail". -/
theorem C7_retryBookkeeping_eval :
    (retryFailedArchives .json
        [⟨"https://a.com".toList, "f.md".toList, 5, "old".toList, 0⟩]
        [] false (fun _ => none) "k".toList "s".toList (sampleSettings 0)
        (fun _ => spnEnvDown)).2 =
      some (.json, [⟨"https://a.com".toList, "f.md".toList, 5, "old".toList, 0⟩]) ∧
    (retryFailedArchives .json
        [⟨"https://a.com".toList, "f.md".toList, 5, "old".toList, 0⟩]
        [] false (fun _ => none) "k".toList "s".toList (sampleSettings 0)
        (fun _ => spnEnvDown)).1.stillFailed =
      [⟨"https://a.com".toList, "f.md".toList, 5,
        "Retry failed (status: failed)".toList, 1⟩] := by
  decide

/-- C8 counterexample: a ledger entry whose URL contains a line feed
breaks the CSV round trip — the reader splits the content into lines
before undoing the quoting, so the quoted record is cut apart and the
re-imported `{url, filePath}` pairs differ from the original. -/
theorem C8_counterexample :
    importedCsvPairs (exportCsv [⟨"a\nb".toList, "f".toList, 5, "e".toList, 0⟩]) ≠
      [⟨"a\nb".toList, "f".toList, 5, "e".toList, 0⟩].map entryPair := by
  decide

/-- C8 (amended): exporting a failure-ledger entry list to JSON always
round-trips through the retry parser to the same `{url, filePath}`
pairs; exporting to CSV round-trips provided no entry field contains a
line feed (a field with one is split mid-record on re-import, see the
counterexample). -/
theorem C8_ledger_roundTrip (entries : List FailedArchiveEntry)
    (h : ∀ e ∈ entries, entryNoNewline e) :
    importedCsvPairs (exportCsv entries) = entries.map entryPair ∧
    importedJsonPairs (exportJson entries) = some (entries.map entryPair) :=
  ⟨exportCsv_import entries h, exportJson_import entries⟩

/-- C8 witness: a ledger with commas, quotes and multiple entries
round-trips through both formats. -/
theorem C8_witness :
    importedCsvPairs (exportCsv
      [⟨"https://a.com/x,y".toList, "dir/f \"q\".md".toList, 17, "err, \"detail\"".toList, 2⟩,
       ⟨"https://b.org".toList, "notes/b.md".toList, 99, "Timeout".toList, 0⟩]) =
      [⟨"https://a.com/x,y".toList, "dir/f \"q\".md".toList, 17, "err, \"detail\"".toList, 2⟩,
       ⟨"https://b.org".toList, "notes/b.md".toList, 99, "Timeout".toList, 0⟩].map entryPair ∧
    importedJsonPairs (exportJson
      [⟨"https://a.com/x,y".toList, "dir/f \"q\".md".toList, 17, "err, \"detail\"".toList, 2⟩,
       ⟨"https://b.org".toList, "notes/b.md".toList, 99, "Timeout".toList, 0⟩]) =
      some ([⟨"https://a.com/x,y".toList, "dir/f \"q\".md".toList, 17, "err, \"detail\"".toList, 2⟩,
       ⟨"https://b.org".toList, "notes/b.md".toList, 99, "Timeout".toList, 0⟩].map entryPair) :=
  C8_ledger_roundTrip
    [⟨"https://a.com/x,y".toList, "dir/f \"q\".md".toList, 17, "err, \"detail\"".toList, 2⟩,
     ⟨"https://b.org".toList, "notes/b.md".toList, 99, "Timeout".toList, 0⟩]
    (by decide)

set_option maxRecDepth 100000 in
/-- C9 counterexample: a run started with an empty access key is not
fatal-once-with-nothing-recorded: every link is still processed
individually, and one FailureLedger entry per link is recorded with
error "Archiving failed (Configuration Error)" (two entries for a
two-link document), contradicting "reported exactly once, no per-link
failure recorded". -/
theorem C9_counterexample :
    (archiveLinksActionFile [] "s".toList (sampleSettings 0)
        ⟨fun _ => spnEnvSuccess "20260101000000", 1000⟩ "note.md".toList
        "[A](https://aaa.com) and [B](https://bbb.org)".toList [] []).failedArchives.length
      = 2 ∧
    (archiveLinksActionFile [] "s".toList (sampleSettings 0)
        ⟨fun _ => spnEnvSuccess "20260101000000", 1000⟩ "note.md".toList
        "[A](https://aaa.com) and [B](https://bbb.org)".toList [] []).failedArchives.map
        FailedArchiveEntry.error =
      ["Archiving failed (Configuration Error)".toList,
       "Archiving failed (Configuration Error)".toList] ∧
    (archiveLinksActionFile [] "s".toList (sampleSettings 0)
        ⟨fun _ => spnEnvSuccess "20260101000000", 1000⟩ "note.md".toList
        "[A](https://aaa.com) and [B](https://bbb.org)".toList [] []).fileContent =
      "[A](https://aaa.com) and [B](https://bbb.org)".toList := by
  decide

/-- C9 (amended): with missing credentials (empty access or secret key)
and a fresh cache, no submission reaches the network (`archiveUrl`
fails fast with "Configuration Error") and the document is left
unchanged with nothing archived — but the run is not aborted: each
surviving link is processed and one per-link FailureLedger entry is
appended, and the error notice is raised per link rather than once. -/
theorem C9_missingKeys_perLink (accessKey secretKey : List Char)
    (settings : SettingsModel) (env : OrchEnv) (filePath content : List Char)
    (ledger0 : List FailedArchiveEntry)
    (hkeys : (accessKey.isEmpty || secretKey.isEmpty) = true) :
    (archiveLinksActionFile accessKey secretKey settings env filePath content
        [] ledger0).fileContent = content ∧
    (archiveLinksActionFile accessKey secretKey settings env filePath content
        [] ledger0).archivedCount = 0 ∧
    (archiveLinksActionFile accessKey secretKey settings env filePath content
        [] ledger0).failedArchives = ledger0 ++
      (((filterLinksForArchiving (findLinks content) content false settings []
          env.now).1.reverse).map (LinkItem.of content)).map
        (fun i => ⟨i.url, filePath, env.now,
          "Archiving failed (Configuration Error)".toList, 0⟩) := by
  have hitems : ∀ i ∈ ((filterLinksForArchiving (findLinks content) content false
      settings [] env.now).1.reverse).map (LinkItem.of content),
      startsWithHttp i.url = true := by
    intro i hi
    obtain ⟨m, hm, rfl⟩ := List.mem_map.1 hi
    have hmf := List.mem_reverse.1 hm
    have hkeep := (List.mem_filter.1 hmf).2
    exact keepLink_startsWithHttp content false settings [] env.now m hkeep
  have hfold := foldl_processSingleLinkFile_noKeys accessKey secretKey settings env
    filePath hkeys
    (((filterLinksForArchiving (findLinks content) content false settings []
      env.now).1.reverse).map (LinkItem.of content))
    ⟨content, [], ledger0, 0, 0,
      (filterLinksForArchiving (findLinks content) content false settings []
        env.now).2, false, 0⟩
    rfl hitems
  simp only [archiveLinksActionFile]
  rw [hfold]
  simp

set_option maxRecDepth 100000 in
/-- C9 witness: the amended statement at the two-link document with an
empty access key. -/
theorem C9_witness :
    (archiveLinksActionFile [] "s".toList (sampleSettings 0)
        ⟨fun _ => spnEnvSuccess "20260101000000", 1000⟩ "note.md".toList
        "[A](https://aaa.com) and [B](https://bbb.org)".toList [] []).fileContent =
      "[A](https://aaa.com) and [B](https://bbb.org)".toList ∧
    (archiveLinksActionFile [] "s".toList (sampleSettings 0)
        ⟨fun _ => spnEnvSuccess "20260101000000", 1000⟩ "note.md".toList
        "[A](https://aaa.com) and [B](https://bbb.org)".toList [] []).archivedCount = 0 ∧
    (archiveLinksActionFile [] "s".toList (sampleSettings 0)
        ⟨fun _ => spnEnvSuccess "20260101000000", 1000⟩ "note.md".toList
        "[A](https://aaa.com) and [B](https://bbb.org)".toList [] []).failedArchives =
      [] ++ (((filterLinksForArchiving
          (findLinks "[A](https://aaa.com) and [B](https://bbb.org)".toList)
          "[A](https://aaa.com) and [B](https://bbb.org)".toList false
          (sampleSettings 0) [] 1000).1.reverse).map
          (LinkItem.of "[A](https://aaa.com) and [B](https://bbb.org)".toList)).map
        (fun i => ⟨i.url, "note.md".toList, 1000,
          "Archiving failed (Configuration Error)".toList, 0⟩) :=
  C9_missingKeys_perLink [] "s".toList (sampleSettings 0)
    ⟨fun _ => spnEnvSuccess "20260101000000", 1000⟩ "note.md".toList
    "[A](https://aaa.com) and [B](https://bbb.org)".toList [] (by decide)

/-- C10 counterexample: "every hard failure triggers a fresh archiveUrl
call on the next encounter" fails when the failure came from a force
call that bypassed a still-fresh cached success: the failure leaves the
fresh entry in place, and the next non-force encounter is served
`cache_hit_success` without any fresh `archiveUrl` call. -/
theorem C10_counterexample :
    (processSingleUrlArchival "k".toList "s".toList (sampleSettings 1) spnEnvDown
        [("https://u.com".toList, ⟨"success".toList, "https://arch".toList, 1000⟩)]
        "https://u.com".toList true 2000).1 =
      .archived_failed "Initiation failed (500)".toList ∧
    (processSingleUrlArchival "k".toList "s".toList (sampleSettings 1) spnEnvDown
        [("https://u.com".toList, ⟨"success".toList, "https://arch".toList, 1000⟩)]
        "https://u.com".toList true 2000).2 =
      [("https://u.com".toList, ⟨"success".toList, "https://arch".toList, 1000⟩)] ∧
    (processSingleUrlArchival "k".toList "s".toList (sampleSettings 1) spnEnvDown
        [("https://u.com".toList, ⟨"success".toList, "https://arch".toList, 1000⟩)]
        "https://u.com".toList false 3000).1 =
      .cache_hit_success "https://arch".toList ∧
    (processSingleUrlArchival "k".toList "s".toList (sampleSettings 1) spnEnvDown
        [("https://u.com".toList, ⟨"success".toList, "https://arch".toList, 1000⟩)]
        "https://u.com".toList false 3000).1.calledArchiveUrl = false := by
  decide

/-- C10 (amended): the cache only ever holds `success` /
`too_many_captures` entries (hard failures are never written), so every
cache-hit outcome is `cache_hit_success` or `cache_hit_limited` backed
by such an entry, a hard failure leaves the cache unchanged, and after
a NON-force hard failure the next non-force encounter (at any later
time) again calls `archiveUrl` afresh; only a failure during a force
call can be followed by a cache hit of an earlier cached result. -/
theorem C10_cache_spec (accessKey secretKey : List Char)
    (settings : SettingsModel) (env : SpnEnv) (cache : Cache)
    (url : List Char) (isForce : Bool) (now : Int) (hinv : cacheInv cache) :
    cacheInv (processSingleUrlArchival accessKey secretKey settings env cache
      url isForce now).2 ∧
    (∀ u, (processSingleUrlArchival accessKey secretKey settings env cache
        url isForce now).1 = .cache_hit_success u →
      ∃ c, cacheGet cache url = some c ∧ c.status = "success".toList ∧ c.url = u) ∧
    (∀ u, (processSingleUrlArchival accessKey secretKey settings env cache
        url isForce now).1 = .cache_hit_limited u →
      ∃ c, cacheGet cache url = some c ∧ c.status = "too_many_captures".toList ∧
        c.url = u) ∧
    (∀ e, (processSingleUrlArchival accessKey secretKey settings env cache
        url isForce now).1 = .archived_failed e →
      (processSingleUrlArchival accessKey secretKey settings env cache
        url isForce now).2 = cache) ∧
    (∀ e env' now', (processSingleUrlArchival accessKey secretKey settings env cache
        url isForce now).1 = .archived_failed e → isForce = false → now ≤ now' →
      (processSingleUrlArchival accessKey secretKey settings env' cache
        url false now').1.calledArchiveUrl = true) := by
  cases hget : cacheGet cache url with
  | none =>
      cases har : archiveUrl accessKey secretKey settings env url with
      | success u =>
          simp only [processSingleUrlArchival, hget, har]
          refine ⟨?_, by simp, by simp, by simp, by simp⟩
          exact cacheInv_set cache url _ hinv (Or.inl rfl)
      | tooManyCaptures u =>
          simp only [processSingleUrlArchival, hget, har]
          refine ⟨?_, by simp, by simp, by simp, by simp⟩
          exact cacheInv_set cache url _ hinv (Or.inr rfl)
      | failed e =>
          simp only [processSingleUrlArchival, hget, har]
          refine ⟨hinv, by simp, by simp, by simp, ?_⟩
          intro e' env' now' _ _ _
          cases archiveUrl accessKey secretKey settings env' url <;>
            simp [SingleArchiveOutcome.calledArchiveUrl]
  | some c =>
      simp only [processSingleUrlArchival, hget]
      by_cases hfresh :
          (!isForce && decide (now - c.timestamp < getFreshnessThresholdMs settings)) = true
      · rw [if_pos hfresh]
        by_cases hst : c.status = "success".toList
        · rw [if_pos hst]
          refine ⟨hinv, ?_, by simp, by simp, by simp⟩
          intro u hu
          simp only [SingleArchiveOutcome.cache_hit_success.injEq] at hu
          exact ⟨c, rfl, hst, hu⟩
        · rw [if_neg hst]
          refine ⟨hinv, by simp, ?_, by simp, by simp⟩
          intro u hu
          simp only [SingleArchiveOutcome.cache_hit_limited.injEq] at hu
          rcases cacheGet_status cache url c hinv hget with h1 | h1
          · exact absurd h1 hst
          · exact ⟨c, rfl, h1, hu⟩
      · rw [if_neg hfresh]
        cases har : archiveUrl accessKey secretKey settings env url with
        | success u =>
            refine ⟨?_, by simp, by simp, by simp, by simp⟩
            exact cacheInv_set cache url _ hinv (Or.inl rfl)
        | tooManyCaptures u =>
            refine ⟨?_, by simp, by simp, by simp, by simp⟩
            exact cacheInv_set cache url _ hinv (Or.inr rfl)
        | failed e =>
            refine ⟨hinv, by simp, by simp, by simp, ?_⟩
            intro e' env' now' _ hforce hnow
            subst hforce
            simp only [Bool.not_false, Bool.true_and] at hfresh
            have hstale : ¬(now - c.timestamp < getFreshnessThresholdMs settings) := by
              simpa using hfresh
            have hstale' :
                ¬(now' - c.timestamp < getFreshnessThresholdMs settings) := by
              omega
            simp only [processSingleUrlArchival, hget, Bool.not_false, Bool.true_and]
            rw [if_neg (by simpa using hstale')]
            cases archiveUrl accessKey secretKey settings env' url <;>
              simp [SingleArchiveOutcome.calledArchiveUrl]

/-- C10 witness: a concrete instance of the amended statement — empty
cache, failing service: the invariant is preserved, the cache stays
empty, and the next non-force encounter calls `archiveUrl` again. -/
theorem C10_witness :
    cacheInv (processSingleUrlArchival "k".toList "s".toList (sampleSettings 1)
      spnEnvDown [] "https://u.com".toList false 1000).2 ∧
    (∀ e, (processSingleUrlArchival "k".toList "s".toList (sampleSettings 1)
        spnEnvDown [] "https://u.com".toList false 1000).1 = .archived_failed e →
      (processSingleUrlArchival "k".toList "s".toList (sampleSettings 1)
        spnEnvDown [] "https://u.com".toList false 1000).2 = []) ∧
    (∀ e env' now', (processSingleUrlArchival "k".toList "s".toList (sampleSettings 1)
        spnEnvDown [] "https://u.com".toList false 1000).1 = .archived_failed e →
      false = false → (1000 : Int) ≤ now' →
      (processSingleUrlArchival "k".toList "s".toList (sampleSettings 1) env' []
        "https://u.com".toList false now').1.calledArchiveUrl = true) :=
  ⟨(C10_cache_spec "k".toList "s".toList (sampleSettings 1) spnEnvDown []
      "https://u.com".toList false 1000 (by intro b hb; simp at hb)).1,
   (C10_cache_spec "k".toList "s".toList (sampleSettings 1) spnEnvDown []
      "https://u.com".toList false 1000 (by intro b hb; simp at hb)).2.2.2.1,
   fun e env' now' h _ hn =>
     (C10_cache_spec "k".toList "s".toList (sampleSettings 1) spnEnvDown []
      "https://u.com".toList false 1000 (by intro b hb; simp at hb)).2.2.2.2
      e env' now' h rfl hn⟩

end Wayback
